import Mathlib

/-!
# The vtm timecode library: embedding and verified properties

Shallow embedding of `include/timecode.hpp`.

Conventions of the embedding.

* `float_t` (the C++ `long double`) is a rational number: infinities, NaN and negative
  zero do not exist.  The first part of the embedding takes every arithmetic operation as
  exact.  The section on the x87 extended format states the arithmetic part of the library
  again with the rounding of `long double` on the x86-64 target after every operation, and
  the properties that depend on the rounding are stated for those definitions.
  `int_t` (the C++ `long long`) is an integer in the 64-bit signed range.
* A `std::string` is the list of its characters.
* A call that trips a `VTM_ASSERT`, or that has no behaviour defined by the
  language (an out-of-bounds array read, a read of the inactive union member,
  a float-to-integer conversion out of range, a signed integer overflow), yields
  a `Fault` instead of a value.
-/

namespace vtm

/-- The ways a call can fail to produce a value. -/
inductive Fault
  /-- A `VTM_ASSERT` precondition does not hold. -/
  | assertion
  /-- The language defines no behaviour for the operation. -/
  | undefined
  deriving DecidableEq, Repr

/-- Equality of results is decidable, so that results can be compared by evaluation. -/
instance instDecidableEqExcept {ε α : Type} [DecidableEq ε] [DecidableEq α] :
    DecidableEq (Except ε α)
  | .ok a, .ok b =>
    if h : a = b then isTrue (by rw [h]) else isFalse (fun h2 => h (Except.ok.inj h2))
  | .error a, .error b =>
    if h : a = b then isTrue (by rw [h]) else isFalse (fun h2 => h (Except.error.inj h2))
  | .ok _, .error _ => isFalse (fun h => Except.noConfusion h)
  | .error _, .ok _ => isFalse (fun h => Except.noConfusion h)

/-- Modelled from the spec: the macro `VTM_ASSERT` of `macros.hpp` (not among the
sources), which signals a validation failure when its condition is false. -/
def VTM_ASSERT (cond : Bool) : Except Fault Unit :=
  if cond then .ok () else .error Fault.assertion

namespace chrono

/-- The string type `string_t` and its view `string_view_t`. -/
abbrev string_t := List Char

/-- The floating type `float64_t = long double`: its values are rationals; the rounding of
an operation is applied where a definition says so (`x87.fl`). -/
abbrev float64_t := ℚ

/-- The integer type `int64_t = long long`. -/
abbrev int64_t := ℤ

/-- The value `std::numeric_limits<long long>::max()`. -/
def INT64_MAX : ℤ := 2 ^ 63 - 1

/-- The value `std::numeric_limits<long long>::min()`. -/
def INT64_MIN : ℤ := -(2 ^ 63)

/-- The value `std::numeric_limits<long double>::max()`, here for the x87 extended format:
the largest finite value. -/
def LDBL_MAX : ℚ := (((2 ^ 64 - 1) * 2 ^ 16320 : ℕ) : ℚ)

/-- The value `std::numeric_limits<long double>::min()`, here for the x87 extended format:
for a floating type this is the smallest positive normal value, not the most negative
one. -/
def LDBL_MIN : ℚ := 1 / ((2 ^ 16382 : ℕ) : ℚ)

/-! ## FPS format registry -/

/-- The enumeration `__FPSFormat::format`. -/
inductive format
  | fps_24
  | fps_25
  | fps_30
  | fps_29p97
  | fpsdf_29p97
  | fps_60
  | none
  deriving DecidableEq, Repr

/-- The configuration constant `VTM_TIMECODE_FPS_DEFAULT`. -/
def VTM_TIMECODE_FPS_DEFAULT : ℤ := 25

/-- Modelled from the spec: the lookup `get_enum_mapping_1` of `utility.hpp` (not
among the sources) over the table `__fpsformat_float()`, whose rows are the
macro arguments in `timecode.hpp`: sentinel `none` with `0.0`, then one value per
enumerator in declaration order. -/
def __fpsformat_value_to_float : format → float64_t
  | .fps_24 => 24
  | .fps_25 => 25
  | .fps_30 => 30
  | .fps_29p97 => 2997 / 100
  | .fpsdf_29p97 => 2997 / 100
  | .fps_60 => 60
  | .none => 0

/-- Modelled from the spec: the lookup `get_enum_mapping_1` over the table
`__fpsformat_int()` of `timecode.hpp`. -/
def __fpsformat_value_to_int : format → int64_t
  | .fps_24 => 24
  | .fps_25 => 25
  | .fps_30 => 30
  | .fps_29p97 => 29
  | .fpsdf_29p97 => 29
  | .fps_60 => 60
  | .none => 0

/-- Modelled from the spec: the reverse lookup `get_enum_mapping_2` over the table
`__fpsformat_int()`; a value with no row falls back to `none`, and the value 29,
which has two rows, is resolved to the first of them. -/
def __fpsformat_int_to_value (i : int64_t) : format :=
  if i = 24 then .fps_24
  else if i = 25 then .fps_25
  else if i = 30 then .fps_30
  else if i = 29 then .fps_29p97
  else if i = 60 then .fps_60
  else .none

/-- Modelled from the spec: the lookup `get_enum_mapping_1` over the table
`__fpsformat_dropframe()` of `timecode.hpp`. -/
def __fpsformat_value_to_dropframe : format → Bool
  | .fpsdf_29p97 => true
  | _ => false

/-- The static member `__FPSFormat::default_value`. -/
def default_value : format := __fpsformat_int_to_value VTM_TIMECODE_FPS_DEFAULT

/-- The static member `__FPSFormat::is_drop_frame`. -/
def is_drop_frame (t : format) : Bool := __fpsformat_value_to_dropframe t

/-- Modelled from the spec: the reverse lookup `get_enum_mapping_2` over the table
`__fpsformat_float()` of `timecode.hpp`; a value with no row falls back to `none`, and the
value 29.97, which has two rows, is resolved to the first of them. -/
def __fpsformat_float_to_value (f : float64_t) : format :=
  if f = 24 then .fps_24
  else if f = 25 then .fps_25
  else if f = 30 then .fps_30
  else if f = 2997 / 100 then .fps_29p97
  else if f = 60 then .fps_60
  else .none

/-- Modelled from the spec: the lookup `get_enum_mapping_1` over the table
`__fpsformat_string()` of `timecode.hpp`: sentinel `none` with `NONE`, then one name per
enumerator in declaration order. -/
def __fpsformat_value_to_string : format → string_t
  | .fps_24 => "24 fps".toList
  | .fps_25 => "25 fps".toList
  | .fps_30 => "30 fps".toList
  | .fps_29p97 => "29.97 fps".toList
  | .fpsdf_29p97 => "29.97 fps drop-frame".toList
  | .fps_60 => "60 fps".toList
  | .none => "NONE".toList

/-- Modelled from the spec: the reverse lookup `get_enum_mapping_2` over the table
`__fpsformat_string()`; a name with no row falls back to `none`. -/
def __fpsformat_string_to_value (s : string_t) : format :=
  if s = "24 fps".toList then .fps_24
  else if s = "25 fps".toList then .fps_25
  else if s = "30 fps".toList then .fps_30
  else if s = "29.97 fps".toList then .fps_29p97
  else if s = "29.97 fps drop-frame".toList then .fpsdf_29p97
  else if s = "60 fps".toList then .fps_60
  else .none

namespace __FPSFormat

/-- The static member `__FPSFormat::from_int`. -/
def from_int (i : int64_t) : format := __fpsformat_int_to_value i

/-- The static member `__FPSFormat::from_float`. -/
def from_float (f : float64_t) : format := __fpsformat_float_to_value f

/-- The static member `__FPSFormat::from_string`. -/
def from_string (s : string_t) : format := __fpsformat_string_to_value s

/-- The static member `__FPSFormat::to_int`. -/
def to_int (t : format) : int64_t := __fpsformat_value_to_int t

/-- The static member `__FPSFormat::to_float`. -/
def to_float (t : format) : float64_t := __fpsformat_value_to_float t

/-- The static member `__FPSFormat::to_string`. -/
def to_string (t : format) : string_t := __fpsformat_value_to_string t

end __FPSFormat

/-! ## Standard library functions used by the engine -/

/-- The function `std::round`: nearest integer, halves away from zero. -/
def std_round (x : ℚ) : ℤ := if 0 ≤ x then ⌊x + 1 / 2⌋ else -⌊-x + 1 / 2⌋

/-- The function `std::fmod` for a non-zero divisor: `n` less the divisor times the
quotient truncated toward zero. -/
def std_fmod (n k : ℚ) : ℚ := n - k * (if 0 ≤ n / k then ⌊n / k⌋ else ⌈n / k⌉)

/-- The function `std::isdigit` in the default locale. -/
def std_isdigit (c : Char) : Bool := decide ('0' ≤ c) && decide (c ≤ '9')

/-- Rounding of a non-negative rational to the nearest natural number, ties to even:
the rounding `printf` applies to the digits it drops. -/
def round_half_even (x : ℚ) : ℕ :=
  let fl := ⌊x⌋.toNat
  let r := x - fl
  if r < 1 / 2 then fl
  else if 1 / 2 < r then fl + 1
  else if fl % 2 = 0 then fl else fl + 1

/-- The function `std::to_string(long double)` of C++20, that is `printf` with `%Lf`: sign,
integer digits, a point and exactly six fraction digits, the value rounded to six decimals. -/
def std_to_string (d : ℚ) : string_t :=
  let scaled := round_half_even (|d| * 1000000)
  let fp := Nat.toDigits 10 (scaled % 1000000)
  (if d < 0 then ['-'] else []) ++ Nat.toDigits 10 (scaled / 1000000) ++ ['.']
    ++ List.replicate (6 - fp.length) '0' ++ fp

/-- The expression `str.substr(0, str.find_first_of(c, 0))`: the characters before the first
`c`, or the whole string when there is none. -/
def substr_before (str : string_t) (c : Char) : string_t := str.takeWhile (fun x => x != c)

/-- The splitting of a non-empty range on a one-character delimiter. -/
def split_nonempty (delim : Char) : List Char → List (List Char)
  | [] => [[]]
  | c :: cs =>
    if c = delim then [] :: split_nonempty delim cs
    else
      match split_nonempty delim cs with
      | [] => [[c]]
      | w :: ws => (c :: w) :: ws

/-- The view `std::ranges::split_view(tc, delim)` for a one-character delimiter: the
empty range has no chunks, and a trailing delimiter is followed by an empty chunk. -/
def split_view (tc : string_t) (delim : Char) : List string_t :=
  if tc = [] then [] else split_nonempty delim tc

/-- The value of a string of decimal digits, most significant first. -/
def digits_value (s : string_t) : ℕ := s.foldl (fun acc c => 10 * acc + (c.toNat - 48)) 0

/-- Modelled from the spec: the helper `vtm::string_to_float` of `utility.hpp` (not among
the sources), which parses a field as a number; a field of decimal digits denotes
its decimal value. -/
def string_to_float (s : string_t) : float64_t := (digits_value s : ℚ)

/-! ## Tick conversion engine

The arithmetic of this section is exact.  The section on the x87 extended format repeats
the arithmetic functions with the rounding of `long double` after every operation. -/

/-- The function `fps_to_single_tick`. -/
def fps_to_single_tick (fps : float64_t) : Except Fault float64_t := do
  VTM_ASSERT (decide (fps > 0))
  pure (1 / fps / 100)

/-- The function `chunks_to_total_ticks`. -/
def chunks_to_total_ticks (time : float64_t × float64_t × float64_t × float64_t)
    (fps : float64_t) : Except Fault float64_t := do
  VTM_ASSERT (decide (fps > 0))
  let (h, m, s, f) := time
  let total_frames := (((h * 60 * 60) + (m * 60) + s) * fps) + f
  let ticks := (← fps_to_single_tick fps) * total_frames
  pure ticks

/-- The function `fps_to_ticks_by_chunk`. -/
def fps_to_ticks_by_chunk (fps : float64_t) :
    Except Fault (float64_t × float64_t × float64_t × float64_t) := do
  VTM_ASSERT (decide (fps > 0))
  let ht := (← fps_to_single_tick fps) * 60 * 60 * fps
  let mt := (← fps_to_single_tick fps) * 60 * fps
  let st := (← fps_to_single_tick fps) * fps
  let ft ← fps_to_single_tick fps
  pure (ht, mt, st, ft)

/-- The function `ticks_to_chunk_string`; the divisor `k` is non-zero. -/
def ticks_to_chunk_string (n k : float64_t) (round : Bool) : string_t :=
  let str := "00".toList
  let d : float64_t := if round then (std_round (n / k) : ℚ) else n / k
  if d > n / k then str
  else
    let str := std_to_string d
    let str := substr_before str '.'
    if str.length = 1 then "0".toList ++ str else str

/-- The four locals `h`, `m`, `s`, `f` of `ticks_to_string`, in that order. -/
def ticks_to_chunks (n fps : float64_t) :
    Except Fault (string_t × string_t × string_t × string_t) := do
  VTM_ASSERT (decide (fps > 0))
  let (ht, mt, st, ft) ← fps_to_ticks_by_chunk fps
  let h := ticks_to_chunk_string n ht false
  let n := std_fmod n ht
  let m := ticks_to_chunk_string n mt false
  let n := std_fmod n mt
  let s := ticks_to_chunk_string n st false
  let n := std_fmod n st
  let f := ticks_to_chunk_string n ft true
  pure (h, m, s, f)

/-- The function `ticks_to_string`. -/
def ticks_to_string (n fps : float64_t) : Except Fault string_t := do
  let (h, m, s, f) ← ticks_to_chunks n fps
  pure (h ++ ":".toList ++ m ++ ":".toList ++ s ++ ":".toList ++ f)

/-- The function `is_tcstring_dropframe`. -/
def is_tcstring_dropframe (tc : string_t) : Bool := tc.any (fun c => c == ';')

/-- The delimiter chosen by `valid_tcstring` and `tcstring_to_ticks`. -/
def tcstring_delim (tc : string_t) : Char := if is_tcstring_dropframe tc then ';' else ':'

/-- The table `chunk_sizes` of `valid_tcstring`. -/
def chunk_sizes : List ℕ := [0, 2, 2, 2]

/-- The inner loop of `valid_tcstring` over the characters of one chunk: `none` when the
function returns `false` from inside the loop, otherwise the flag `valid` after it. -/
def valid_tcstring_chars (valid : Bool) : List Char → Option Bool
  | [] => some valid
  | d :: ds =>
    let valid := valid && std_isdigit d
    if !valid then none else valid_tcstring_chars valid ds

/-- The outer loop of `valid_tcstring` over the chunks, from the state `valid`,
`chunk_count`, followed by the final return. -/
def valid_tcstring_loop (valid : Bool) (chunk_count : ℕ) : List string_t → Except Fault Bool
  | [] => .ok (valid && decide (chunk_count = 4))
  | sv :: rest =>
    match chunk_sizes[chunk_count]? with
    | Option.none => .error Fault.undefined
    | some size =>
      let valid := if size > 0 then valid && decide (sv.length = size) else valid
      match valid_tcstring_chars valid sv with
      | Option.none => .ok false
      | some valid => valid_tcstring_loop valid (chunk_count + 1) rest

/-- The function `valid_tcstring`. -/
def valid_tcstring (tc : string_t) : Except Fault Bool :=
  let valid := !tc.isEmpty
  if !valid then .ok false
  else valid_tcstring_loop valid 0 (split_view tc (tcstring_delim tc))

/-- The loop of `tcstring_to_ticks`, from the state `ticks`, `i`. -/
def tcstring_to_ticks_loop (coefs : List float64_t) (ticks : float64_t) (i : ℕ) :
    List string_t → Except Fault float64_t
  | [] => .ok ticks
  | chunk :: rest =>
    match coefs[i]? with
    | Option.none => .error Fault.undefined
    | some coef => tcstring_to_ticks_loop coefs (ticks + string_to_float chunk * coef) (i + 1) rest

/-- The function `tcstring_to_ticks`. -/
def tcstring_to_ticks (tc : string_t) (fps : float64_t) : Except Fault float64_t := do
  VTM_ASSERT ((← valid_tcstring tc) == true)
  let (ht, mt, st, ft) ← fps_to_ticks_by_chunk fps
  tcstring_to_ticks_loop [ht, mt, st, ft] 0 0 (split_view tc (tcstring_delim tc))

/-! ## The timecode value -/

/-- The enumeration `__BasicTimecode::mode`. -/
inductive mode
  | floating
  | integral
  deriving DecidableEq, Repr

/-- The anonymous union of the members `f` and `i`: it holds the member written last. -/
inductive value_t
  | f (x : float64_t)
  | i (n : int64_t)
  deriving DecidableEq

/-- The data members of the class `__BasicTimecode`. -/
structure __BasicTimecode where
  _mode : mode
  _fps : format
  _dropframe : Bool
  _value : value_t
  deriving DecidableEq

namespace __BasicTimecode

/-- The default constructor: every member takes its default member initializer. -/
def default : __BasicTimecode :=
  ⟨mode.floating, default_value, is_drop_frame default_value, value_t.f 0⟩

/-- The member `set_value(const V value)` for a floating `V`. -/
def set_value_float (t : __BasicTimecode) (value : float64_t) : __BasicTimecode :=
  { t with _value := value_t.f value, _mode := mode.floating }

/-- The member `set_value(const V value)` for an integral `V`. -/
def set_value_int (t : __BasicTimecode) (value : int64_t) : __BasicTimecode :=
  { t with _value := value_t.i value, _mode := mode.integral }

/-- The constructor `__BasicTimecode(const V value, const fps_t fps)` for a floating `V`: the
members are default-initialized, then the body sets the value and `_fps`. -/
def ctor_float (value : float64_t) (fps : format) : __BasicTimecode :=
  { default.set_value_float value with _fps := fps }

/-- The constructor `__BasicTimecode(const V value, const fps_t fps)` for an integral `V`. -/
def ctor_int (value : int64_t) (fps : format) : __BasicTimecode :=
  { default.set_value_int value with _fps := fps }

/-- The assignment `operator=(const V rhs)` for a floating `V`. -/
def assign_float (t : __BasicTimecode) (rhs : float64_t) : __BasicTimecode :=
  t.set_value_float rhs

/-- The assignment `operator=(const V rhs)` for an integral `V`. -/
def assign_int (t : __BasicTimecode) (rhs : int64_t) : __BasicTimecode :=
  t.set_value_int rhs

/-- The static member `from_hmsf`. -/
def from_hmsf (h m s f : ℤ) (fps : format) : Except Fault __BasicTimecode := do
  VTM_ASSERT (decide (h ≥ 0))
  VTM_ASSERT (decide (m ≥ 0))
  VTM_ASSERT (decide (s ≥ 0))
  VTM_ASSERT (decide (f ≥ 0))
  let ticks ← chunks_to_total_ticks ((h : ℚ), (m : ℚ), (s : ℚ), (f : ℚ))
    (__fpsformat_value_to_float fps)
  pure (ctor_float ticks fps)

/-- The static member `from_string`. -/
def from_string (tc : string_t) (fps : format) : Except Fault __BasicTimecode := do
  VTM_ASSERT (← valid_tcstring tc)
  let ticks ← tcstring_to_ticks tc (__fpsformat_value_to_float fps)
  pure (ctor_float ticks fps)

/-- The conversion `static_cast<int_t>` of an integer-valued floating number: defined only
when the value is in the range of `int_t`. -/
def float_to_int (z : ℤ) : Except Fault int64_t :=
  if INT64_MIN ≤ z ∧ z ≤ INT64_MAX then .ok z else .error Fault.undefined

/-- The member `as_signed`.  A read of the union member that was not written last gives
no defined value; it is a fault only where the result depends on it. -/
def as_signed (t : __BasicTimecode) : Except Fault int64_t :=
  match t._mode, t._value with
  | mode.integral, value_t.i n => .ok n
  | mode.integral, value_t.f _ => .error Fault.undefined
  | mode.floating, value_t.f x => float_to_int (std_round x)
  | mode.floating, value_t.i _ => .error Fault.undefined

/-- The member `as_float`. -/
def as_float (t : __BasicTimecode) : Except Fault float64_t :=
  match t._mode, t._value with
  | mode.floating, value_t.f x => .ok x
  | mode.floating, value_t.i _ => .error Fault.undefined
  | mode.integral, value_t.i n => .ok (n : ℚ)
  | mode.integral, value_t.f _ => .error Fault.undefined

/-- The member `as_string`. -/
def as_string (t : __BasicTimecode) : Except Fault string_t := do
  ticks_to_string (← t.as_float) (__fpsformat_value_to_float t._fps)

/-- The member `as_pair<int_t, float_t>`: `paired_members::choose` selects `as_signed` for
the first component and `as_float` for the second. -/
def as_pair_int_float (t : __BasicTimecode) : Except Fault (int64_t × float64_t) := do
  let i ← t.as_signed
  let f ← t.as_float
  pure (i, f)

/-- The comparison `operator==`. -/
def operator_eq (lhs rhs : __BasicTimecode) : Except Fault Bool := do
  let (tmp_i, tmp_f) ← lhs.as_pair_int_float
  let (rhs_tmp_i, rhs_tmp_f) ← rhs.as_pair_int_float
  pure (decide (tmp_i = rhs_tmp_i) && decide (tmp_f = rhs_tmp_f))

/-- The member `reset`. -/
def reset (t : __BasicTimecode) : __BasicTimecode := t.set_value_float 0

/-- The member `fps`. -/
def fps (t : __BasicTimecode) : format := t._fps

/-- The member `dropframe`. -/
def dropframe (t : __BasicTimecode) : Bool := t._dropframe

/-- The copy constructor: `_mode`, `_fps` and `_value` are copied in the member initializer
list; `_dropframe` is not named there and takes its default member initializer, which
reads the `_fps` just initialized. -/
def copy_ctor (tc : __BasicTimecode) : __BasicTimecode :=
  ⟨tc._mode, tc._fps, is_drop_frame tc._fps, tc._value⟩

/-- The copy assignment `operator=(const __BasicTimecode&)`: it assigns `_mode`, `_fps` and
`_value`. -/
def copy_assign (t tc : __BasicTimecode) : __BasicTimecode :=
  { t with _mode := tc._mode, _fps := tc._fps, _value := tc._value }

/-- The state in which the move constructor and the move assignment leave their source:
`_mode`, `_fps` and `_value` are assigned from empty braces, that is the enumerators of
value zero and the union with its default member initializer. -/
def moved_from (tc : __BasicTimecode) : __BasicTimecode :=
  { tc with _mode := mode.floating, _fps := format.fps_24, _value := value_t.f 0 }

/-- The move constructor: the members are default-initialized, then the body assigns
`_mode`, `_fps` and `_value` and clears the source.  The result is the pair of the new
object and the source after the call. -/
def move_ctor (tc : __BasicTimecode) : __BasicTimecode × __BasicTimecode :=
  ({ default with _mode := tc._mode, _fps := tc._fps, _value := tc._value }, moved_from tc)

/-- The move assignment `operator=(__BasicTimecode&&)`: the pair of the target and the
source after the call. -/
def move_assign (t tc : __BasicTimecode) : __BasicTimecode × __BasicTimecode :=
  (copy_assign t tc, moved_from tc)

/-- A read of the union member `f` whose value is used: defined when `f` was written
last. -/
def read_f (v : value_t) : Except Fault float64_t :=
  match v with
  | value_t.f x => .ok x
  | value_t.i _ => .error Fault.undefined

/-- A read of the union member `i` whose value is used: defined when `i` was written
last. -/
def read_i (v : value_t) : Except Fault int64_t :=
  match v with
  | value_t.i n => .ok n
  | value_t.f _ => .error Fault.undefined

/-- The result of an addition or subtraction of two `int_t`: defined only when the exact
result is in the range of `int_t` (signed overflow has no defined behaviour). -/
def signed_result (z : ℤ) : Except Fault int64_t :=
  if INT64_MIN ≤ z ∧ z ≤ INT64_MAX then .ok z else .error Fault.undefined

/-- The member `set_value(const __BasicTimecode& value)`: after the branch for a floating
`value` the function goes on to copy `value._value.i` and to set the integral mode. -/
def set_value_timecode (t value : __BasicTimecode) : Except Fault __BasicTimecode := do
  let t ← if value._mode = mode.floating then do
      let f ← read_f value._value
      pure { t with _value := value_t.f f, _mode := mode.floating }
    else pure t
  let i ← read_i value._value
  pure { t with _value := value_t.i i, _mode := mode.integral }

/-- The friend `operator+(const __BasicTimecode& lhs, const V rhs)` for a floating `V`. -/
def operator_plus_float (lhs : __BasicTimecode) (rhs : float64_t) :
    Except Fault __BasicTimecode := do
  let tmp := copy_ctor lhs
  let f ← read_f tmp._value
  pure (tmp.set_value_float (min LDBL_MAX (f + rhs)))

/-- The friend `operator+(const __BasicTimecode& lhs, const V rhs)` for an integral `V`. -/
def operator_plus_int (lhs : __BasicTimecode) (rhs : int64_t) :
    Except Fault __BasicTimecode := do
  let tmp := copy_ctor lhs
  let i ← read_i tmp._value
  let sum ← signed_result (i + rhs)
  pure (tmp.set_value_int (min INT64_MAX sum))

/-- The friend `operator-(const __BasicTimecode& lhs, const V rhs)` for a floating `V`. -/
def operator_minus_float (lhs : __BasicTimecode) (rhs : float64_t) :
    Except Fault __BasicTimecode := do
  let tmp := copy_ctor lhs
  let f ← read_f tmp._value
  pure (tmp.set_value_float (max LDBL_MIN (f - rhs)))

/-- The friend `operator-(const __BasicTimecode& lhs, const V rhs)` for an integral `V`. -/
def operator_minus_int (lhs : __BasicTimecode) (rhs : int64_t) :
    Except Fault __BasicTimecode := do
  let tmp := copy_ctor lhs
  let i ← read_i tmp._value
  let diff ← signed_result (i - rhs)
  pure (tmp.set_value_int (max INT64_MIN diff))

/-- The friend `operator+(const __BasicTimecode& lhs, const __BasicTimecode& rhs)`. -/
def operator_plus (lhs rhs : __BasicTimecode) : Except Fault __BasicTimecode := do
  let tmp := copy_ctor lhs
  let tmp ← if tmp._mode = mode.floating then do
      let a ← read_f tmp._value
      let b ← read_f rhs._value
      pure (tmp.set_value_float (min LDBL_MAX (a + b)))
    else pure tmp
  let a ← read_i tmp._value
  let b ← read_i rhs._value
  let sum ← signed_result (a + b)
  pure (tmp.set_value_int (min INT64_MAX sum))

/-- The friend `operator-(const __BasicTimecode& lhs, const __BasicTimecode& rhs)`. -/
def operator_minus (lhs rhs : __BasicTimecode) : Except Fault __BasicTimecode := do
  let tmp := copy_ctor lhs
  let tmp ← if tmp._mode = mode.floating then do
      let a ← read_f tmp._value
      let b ← read_f rhs._value
      pure (tmp.set_value_float (max LDBL_MIN (a - b)))
    else pure tmp
  let a ← read_i tmp._value
  let b ← read_i rhs._value
  let diff ← signed_result (a - b)
  pure (tmp.set_value_int (max INT64_MIN diff))

/-- The member `operator+=` for a floating operand. -/
def operator_plus_assign_float (t : __BasicTimecode) (rhs : float64_t) :
    Except Fault __BasicTimecode := do
  t.set_value_timecode (← operator_plus_float t rhs)

/-- The member `operator+=` for an integral operand. -/
def operator_plus_assign_int (t : __BasicTimecode) (rhs : int64_t) :
    Except Fault __BasicTimecode := do
  t.set_value_timecode (← operator_plus_int t rhs)

/-- The member `operator+=` for a Timecode operand. -/
def operator_plus_assign (t rhs : __BasicTimecode) : Except Fault __BasicTimecode := do
  t.set_value_timecode (← operator_plus t rhs)

/-- The member `operator-=` for a floating operand. -/
def operator_minus_assign_float (t : __BasicTimecode) (rhs : float64_t) :
    Except Fault __BasicTimecode := do
  t.set_value_timecode (← operator_minus_float t rhs)

/-- The member `operator-=` for an integral operand. -/
def operator_minus_assign_int (t : __BasicTimecode) (rhs : int64_t) :
    Except Fault __BasicTimecode := do
  t.set_value_timecode (← operator_minus_int t rhs)

/-- The member `operator-=` for a Timecode operand. -/
def operator_minus_assign (t rhs : __BasicTimecode) : Except Fault __BasicTimecode := do
  t.set_value_timecode (← operator_minus t rhs)

/-- The type `std::strong_ordering` returned by `operator<=>`. -/
inductive strong_ordering
  | less
  | equal
  | greater
  deriving DecidableEq, Repr

/-- The comparison `operator<=>`. -/
def operator_spaceship (lhs rhs : __BasicTimecode) : Except Fault strong_ordering := do
  let (tmp_i, tmp_f) ← lhs.as_pair_int_float
  let (rhs_tmp_i, rhs_tmp_f) ← rhs.as_pair_int_float
  if tmp_i < rhs_tmp_i ∧ tmp_f < rhs_tmp_f then pure strong_ordering.less
  else if tmp_i > rhs_tmp_i ∧ tmp_f > rhs_tmp_f then pure strong_ordering.greater
  else pure strong_ordering.equal

/-- The expression `a != b`, rewritten by the language to `!(a == b)`. -/
def operator_ne (a b : __BasicTimecode) : Except Fault Bool := do
  pure (!(← operator_eq a b))

/-- The expression `a < b`, rewritten by the language to `(a <=> b) < 0`. -/
def operator_lt (a b : __BasicTimecode) : Except Fault Bool := do
  pure (decide ((← operator_spaceship a b) = strong_ordering.less))

/-- The expression `a > b`, rewritten by the language to `(a <=> b) > 0`. -/
def operator_gt (a b : __BasicTimecode) : Except Fault Bool := do
  pure (decide ((← operator_spaceship a b) = strong_ordering.greater))

/-- The expression `a <= b`, rewritten by the language to `(a <=> b) <= 0`. -/
def operator_le (a b : __BasicTimecode) : Except Fault Bool := do
  pure (decide ((← operator_spaceship a b) ≠ strong_ordering.greater))

/-- The expression `a >= b`, rewritten by the language to `(a <=> b) >= 0`. -/
def operator_ge (a b : __BasicTimecode) : Except Fault Bool := do
  pure (decide ((← operator_spaceship a b) ≠ strong_ordering.less))

end __BasicTimecode

/-- The alias `vtm::chrono::timecode`. -/
abbrev timecode := __BasicTimecode

/-! ## The engine in the x87 extended format

The definitions above take the arithmetic of `long double` as exact.  On the x86-64 target
`long double` is the x87 extended format, with a significand of 64 bits, and every
operation rounds its exact result to that format.  This section states the arithmetic part
of the library again with that rounding after every operation; the functions that do no
arithmetic are shared with the part above.  The exponent range is not bounded here, which
matters only beyond about `10 ^ 4932`. -/

namespace x87

/-- The number of binary digits of `n`, found by halving at most `fuel` times. -/
def bit_length_fuel : ℕ → ℕ → ℕ
  | 0, _ => 0
  | fuel + 1, n => if n = 0 then 0 else bit_length_fuel fuel (n / 2) + 1

/-- The number of binary digits of `n`: zero for `0`, and otherwise the `b` with
`2 ^ (b - 1) ≤ n < 2 ^ b`. -/
def bit_length (n : ℕ) : ℕ := bit_length_fuel n n

/-- The binary exponent of a non-zero rational `x`: the integer `e` with
`2 ^ e ≤ |x| < 2 ^ (e + 1)`. -/
def exponent (x : ℚ) : ℤ :=
  let t : ℤ := (bit_length x.num.natAbs : ℤ) - (bit_length x.den : ℤ)
  if (2 : ℚ) ^ t ≤ |x| then t else t - 1

/-- The rounding of an exact result to the x87 extended format: the nearest number with a
significand of 64 bits, ties to the even significand. -/
def fl (x : ℚ) : ℚ :=
  if x = 0 then 0
  else
    let ulp : ℚ := (2 : ℚ) ^ (exponent x - 63)
    let y : ℚ := (round_half_even (|x| / ulp) : ℚ) * ulp
    if x < 0 then -y else y

/-- Modelled from the spec: the entry of the table `__fpsformat_float()` as the
`long double` that the lookup returns, the decimal value of the table taken to the nearest
number of the format. -/
def __fpsformat_value_to_float (t : format) : float64_t :=
  fl (chrono.__fpsformat_value_to_float t)

/-- The function `fps_to_single_tick`: `1.0 / fps / 100`, two divisions. -/
def fps_to_single_tick (fps : float64_t) : Except Fault float64_t := do
  VTM_ASSERT (decide (fps > 0))
  pure (fl (fl (1 / fps) / 100))

/-- The function `chunks_to_total_ticks`. -/
def chunks_to_total_ticks (time : float64_t × float64_t × float64_t × float64_t)
    (fps : float64_t) : Except Fault float64_t := do
  VTM_ASSERT (decide (fps > 0))
  let (h, m, s, f) := time
  let total_frames := fl (fl (fl (fl (fl (fl (h * 60) * 60) + fl (m * 60)) + s) * fps) + f)
  let ticks := fl ((← fps_to_single_tick fps) * total_frames)
  pure ticks

/-- The function `fps_to_ticks_by_chunk`. -/
def fps_to_ticks_by_chunk (fps : float64_t) :
    Except Fault (float64_t × float64_t × float64_t × float64_t) := do
  VTM_ASSERT (decide (fps > 0))
  let ht := fl (fl (fl ((← fps_to_single_tick fps) * 60) * 60) * fps)
  let mt := fl (fl ((← fps_to_single_tick fps) * 60) * fps)
  let st := fl ((← fps_to_single_tick fps) * fps)
  let ft ← fps_to_single_tick fps
  pure (ht, mt, st, ft)

/-- The function `ticks_to_chunk_string`; the divisor `k` is non-zero.  The quotient
`n / k` is rounded to the format; `std::round` and the comparison are exact. -/
def ticks_to_chunk_string (n k : float64_t) (round : Bool) : string_t :=
  let str := "00".toList
  let d : float64_t := if round then (std_round (fl (n / k)) : ℚ) else fl (n / k)
  if d > fl (n / k) then str
  else
    let str := std_to_string d
    let str := substr_before str '.'
    if str.length = 1 then "0".toList ++ str else str

/-- The four locals `h`, `m`, `s`, `f` of `ticks_to_string`, in that order.  The result of
`std::fmod` is exact in the format. -/
def ticks_to_chunks (n fps : float64_t) :
    Except Fault (string_t × string_t × string_t × string_t) := do
  VTM_ASSERT (decide (fps > 0))
  let (ht, mt, st, ft) ← fps_to_ticks_by_chunk fps
  let h := ticks_to_chunk_string n ht false
  let n := std_fmod n ht
  let m := ticks_to_chunk_string n mt false
  let n := std_fmod n mt
  let s := ticks_to_chunk_string n st false
  let n := std_fmod n st
  let f := ticks_to_chunk_string n ft true
  pure (h, m, s, f)

/-- The function `ticks_to_string`. -/
def ticks_to_string (n fps : float64_t) : Except Fault string_t := do
  let (h, m, s, f) ← ticks_to_chunks n fps
  pure (h ++ ":".toList ++ m ++ ":".toList ++ s ++ ":".toList ++ f)

/-- The loop of `tcstring_to_ticks`, from the state `ticks`, `i`: the product and the sum of
`ticks += string_to_float(chunk) * coefs[i++]` are rounded one after the other. -/
def tcstring_to_ticks_loop (coefs : List float64_t) (ticks : float64_t) (i : ℕ) :
    List string_t → Except Fault float64_t
  | [] => .ok ticks
  | chunk :: rest =>
    match coefs[i]? with
    | Option.none => .error Fault.undefined
    | some coef =>
      tcstring_to_ticks_loop coefs (fl (ticks + fl (string_to_float chunk * coef))) (i + 1) rest

/-- The function `tcstring_to_ticks`. -/
def tcstring_to_ticks (tc : string_t) (fps : float64_t) : Except Fault float64_t := do
  VTM_ASSERT ((← valid_tcstring tc) == true)
  let (ht, mt, st, ft) ← fps_to_ticks_by_chunk fps
  tcstring_to_ticks_loop [ht, mt, st, ft] 0 0 (split_view tc (tcstring_delim tc))

/-- The static member `from_hmsf`; an argument of type `long long` converts to
`long double` without rounding. -/
def from_hmsf (h m s f : ℤ) (fps : format) : Except Fault __BasicTimecode := do
  VTM_ASSERT (decide (h ≥ 0))
  VTM_ASSERT (decide (m ≥ 0))
  VTM_ASSERT (decide (s ≥ 0))
  VTM_ASSERT (decide (f ≥ 0))
  let ticks ← chunks_to_total_ticks ((h : ℚ), (m : ℚ), (s : ℚ), (f : ℚ))
    (__fpsformat_value_to_float fps)
  pure (__BasicTimecode.ctor_float ticks fps)

/-- The static member `from_string`. -/
def from_string (tc : string_t) (fps : format) : Except Fault __BasicTimecode := do
  VTM_ASSERT (← valid_tcstring tc)
  let ticks ← tcstring_to_ticks tc (__fpsformat_value_to_float fps)
  pure (__BasicTimecode.ctor_float ticks fps)

/-- The conversion `static_cast<int_t>` of an integer-valued `long double` as the x87 store
instruction performs it: a value outside the range of `int_t` gives the most negative
value of `int_t`. -/
def float_to_int (z : ℤ) : int64_t :=
  if INT64_MIN ≤ z ∧ z ≤ INT64_MAX then z else INT64_MIN

/-- The member `as_signed`. -/
def as_signed (t : __BasicTimecode) : Except Fault int64_t :=
  match t._mode, t._value with
  | mode.integral, value_t.i n => .ok n
  | mode.integral, value_t.f _ => .error Fault.undefined
  | mode.floating, value_t.f x => .ok (float_to_int (std_round x))
  | mode.floating, value_t.i _ => .error Fault.undefined

/-- The member `as_string`. -/
def as_string (t : __BasicTimecode) : Except Fault string_t := do
  ticks_to_string (← t.as_float) (__fpsformat_value_to_float t._fps)

/-- The member `as_pair<int_t, float_t>`. -/
def as_pair_int_float (t : __BasicTimecode) : Except Fault (int64_t × float64_t) := do
  let i ← as_signed t
  let f ← t.as_float
  pure (i, f)

/-- The comparison `operator==`. -/
def operator_eq (lhs rhs : __BasicTimecode) : Except Fault Bool := do
  let (tmp_i, tmp_f) ← as_pair_int_float lhs
  let (rhs_tmp_i, rhs_tmp_f) ← as_pair_int_float rhs
  pure (decide (tmp_i = rhs_tmp_i) && decide (tmp_f = rhs_tmp_f))

/-- The comparison `operator<=>`. -/
def operator_spaceship (lhs rhs : __BasicTimecode) :
    Except Fault __BasicTimecode.strong_ordering := do
  let (tmp_i, tmp_f) ← as_pair_int_float lhs
  let (rhs_tmp_i, rhs_tmp_f) ← as_pair_int_float rhs
  if tmp_i < rhs_tmp_i ∧ tmp_f < rhs_tmp_f then pure __BasicTimecode.strong_ordering.less
  else if tmp_i > rhs_tmp_i ∧ tmp_f > rhs_tmp_f then pure __BasicTimecode.strong_ordering.greater
  else pure __BasicTimecode.strong_ordering.equal

/-- The expression `a != b`, rewritten by the language to `!(a == b)`. -/
def operator_ne (a b : __BasicTimecode) : Except Fault Bool := do
  pure (!(← operator_eq a b))

/-- The expression `a < b`, rewritten by the language to `(a <=> b) < 0`. -/
def operator_lt (a b : __BasicTimecode) : Except Fault Bool := do
  pure (decide ((← operator_spaceship a b) = __BasicTimecode.strong_ordering.less))

/-- The expression `a > b`, rewritten by the language to `(a <=> b) > 0`. -/
def operator_gt (a b : __BasicTimecode) : Except Fault Bool := do
  pure (decide ((← operator_spaceship a b) = __BasicTimecode.strong_ordering.greater))

/-- The expression `a <= b`, rewritten by the language to `(a <=> b) <= 0`. -/
def operator_le (a b : __BasicTimecode) : Except Fault Bool := do
  pure (decide ((← operator_spaceship a b) ≠ __BasicTimecode.strong_ordering.greater))

/-- The expression `a >= b`, rewritten by the language to `(a <=> b) >= 0`. -/
def operator_ge (a b : __BasicTimecode) : Except Fault Bool := do
  pure (decide ((← operator_spaceship a b) ≠ __BasicTimecode.strong_ordering.less))

end x87


/-! ## Renderings used to state the properties -/

/-- A number below one hundred written with exactly two decimal digits. -/
def two_digits (n : ℕ) : string_t := [Nat.digitChar (n / 10), Nat.digitChar (n % 10)]

/-- The decimal digits of a number, with a leading zero when there is only one digit. -/
def padded_decimal (n : ℕ) : string_t :=
  if (Nat.toDigits 10 n).length = 1 then '0' :: Nat.toDigits 10 n else Nat.toDigits 10 n

/-- The layout `HH:MM:SS:FF` with the given delimiter before the frame field and `:`
elsewhere. -/
def layout (h m s f : string_t) (last : Char) : string_t :=
  h ++ ':' :: m ++ ':' :: s ++ last :: f


/-! ## Digits -/

theorem digitChar_facts : ∀ d, d < 10 →
    std_isdigit (Nat.digitChar d) = true ∧ Nat.digitChar d ≠ ':' ∧ Nat.digitChar d ≠ ';'
      ∧ Nat.digitChar d ≠ '.' ∧ (Nat.digitChar d).toNat - 48 = d := by
  decide

theorem toDigitsCore_all (P : Char → Prop) (hP : ∀ d, d < 10 → P (Nat.digitChar d)) :
    ∀ (fuel n : ℕ) (acc : List Char), (∀ c ∈ acc, P c) →
      ∀ c ∈ Nat.toDigitsCore 10 fuel n acc, P c := by
  intro fuel
  induction fuel with
  | zero => intro n acc hacc c hc; simpa [Nat.toDigitsCore] using hacc c (by simpa [Nat.toDigitsCore] using hc)
  | succ k ih =>
    intro n acc hacc c hc
    have hd : P (Nat.digitChar (n % 10)) := hP _ (Nat.mod_lt _ (by norm_num))
    have hacc2 : ∀ c ∈ Nat.digitChar (n % 10) :: acc, P c := by
      intro c hc
      rcases List.mem_cons.mp hc with h | h
      · rw [h]; exact hd
      · exact hacc c h
    simp only [Nat.toDigitsCore] at hc
    split at hc
    · exact hacc2 c hc
    · exact ih _ _ hacc2 c hc

theorem toDigits_all (P : Char → Prop) (hP : ∀ d, d < 10 → P (Nat.digitChar d)) (n : ℕ) :
    ∀ c ∈ Nat.toDigits 10 n, P c :=
  toDigitsCore_all P hP (n + 1) n [] (by simp)

theorem toDigits_isdigit (n : ℕ) : ∀ c ∈ Nat.toDigits 10 n, std_isdigit c = true :=
  toDigits_all _ (fun d hd => (digitChar_facts d hd).1) n

theorem std_isdigit_ne (c : Char) (h : std_isdigit c = true) : c ≠ ':' ∧ c ≠ ';' ∧ c ≠ '.' := by
  refine ⟨?_, ?_, ?_⟩ <;> (intro hc; rw [hc] at h; revert h; decide)

theorem padded_decimal_eq_two_digits : ∀ n, n < 100 → padded_decimal n = two_digits n := by
  decide

/-! ## Rounding, formatting of one number -/

theorem round_half_even_ge (x : ℚ) (hx : 0 ≤ x) : x - 1 / 2 ≤ (round_half_even x : ℚ) := by
  have hfl : 0 ≤ ⌊x⌋ := Int.floor_nonneg.mpr hx
  have hcast : ((⌊x⌋.toNat : ℕ) : ℚ) = (⌊x⌋ : ℚ) := by
    have : ((⌊x⌋.toNat : ℕ) : ℤ) = ⌊x⌋ := Int.toNat_of_nonneg hfl
    exact_mod_cast this
  have h1 : (⌊x⌋ : ℚ) ≤ x := Int.floor_le x
  have h2 : x < (⌊x⌋ : ℚ) + 1 := Int.lt_floor_add_one x
  unfold round_half_even
  simp only
  split_ifs with ha hb hc
  · rw [hcast] at ha ⊢; linarith
  · push_cast; rw [hcast]; linarith
  · rw [hcast] at ha hb ⊢; linarith
  · push_cast; rw [hcast]; linarith

theorem round_half_even_le (x : ℚ) (hx : 0 ≤ x) : (round_half_even x : ℚ) ≤ x + 1 / 2 := by
  have hfl : 0 ≤ ⌊x⌋ := Int.floor_nonneg.mpr hx
  have hcast : ((⌊x⌋.toNat : ℕ) : ℚ) = (⌊x⌋ : ℚ) := by
    have : ((⌊x⌋.toNat : ℕ) : ℤ) = ⌊x⌋ := Int.toNat_of_nonneg hfl
    exact_mod_cast this
  have h1 : (⌊x⌋ : ℚ) ≤ x := Int.floor_le x
  have h2 : x < (⌊x⌋ : ℚ) + 1 := Int.lt_floor_add_one x
  unfold round_half_even
  simp only
  split_ifs with ha hb hc
  · rw [hcast]; linarith
  · rw [hcast] at hb; push_cast; rw [hcast]; linarith
  · rw [hcast]; linarith
  · rw [hcast] at ha hb; push_cast; rw [hcast]; linarith

/-- The integer part printed for a number whose six-decimal rounding stays below the
next integer. -/
theorem round_half_even_div (q : ℚ) (H : ℕ) (h1 : (H : ℚ) ≤ q)
    (h2 : q * 1000000 < ((H : ℚ) + 1) * 1000000 - 1 / 2) :
    round_half_even (q * 1000000) / 1000000 = H := by
  have hq : 0 ≤ q * 1000000 := by
    have : (0 : ℚ) ≤ H := Nat.cast_nonneg H
    nlinarith
  have hlo := round_half_even_ge _ hq
  have hhi := round_half_even_le _ hq
  have hlo2 : ((H * 1000000 : ℕ) : ℚ) - 1 < (round_half_even (q * 1000000) : ℚ) := by
    push_cast; linarith
  have hhi2 : (round_half_even (q * 1000000) : ℚ) < (((H + 1) * 1000000 : ℕ) : ℚ) := by
    push_cast; linarith
  have hlo3 : H * 1000000 ≤ round_half_even (q * 1000000) := by
    have : ((H * 1000000 : ℕ) : ℚ) < (round_half_even (q * 1000000) : ℚ) + 1 := by linarith
    have : H * 1000000 < round_half_even (q * 1000000) + 1 := by exact_mod_cast this
    omega
  have hhi3 : round_half_even (q * 1000000) < (H + 1) * 1000000 := by exact_mod_cast hhi2
  omega

theorem takeWhile_append_stop (p : Char → Bool) (a rest : List Char) (x : Char)
    (ha : ∀ c ∈ a, p c = true) (hx : p x = false) :
    (a ++ x :: rest).takeWhile p = a := by
  induction a with
  | nil => simp [List.takeWhile, hx]
  | cons c cs ih =>
    have hc : p c = true := ha c (List.mem_cons_self _ _)
    rw [List.cons_append, List.takeWhile_cons, if_pos hc,
      ih (fun y hy => ha y (List.mem_cons_of_mem _ hy))]

/-- The characters that `std::to_string` prints before the decimal point. -/
theorem substr_before_to_string (d : ℚ) (hd : 0 ≤ d) :
    substr_before (std_to_string d) '.'
      = Nat.toDigits 10 (round_half_even (d * 1000000) / 1000000) := by
  unfold substr_before std_to_string
  simp only [not_lt.mpr hd, if_false, List.nil_append, abs_of_nonneg hd, List.append_assoc,
    List.singleton_append]
  apply takeWhile_append_stop
  · intro c hc
    have h := (std_isdigit_ne c (toDigits_isdigit _ c hc)).2.2
    simpa using h
  · simp

/-- The chunk string of a non-negative quotient formatted without rounding. -/
theorem ticks_to_chunk_string_plain (n k : ℚ) (h : 0 ≤ n / k) :
    ticks_to_chunk_string n k false
      = padded_decimal (round_half_even (n / k * 1000000) / 1000000) := by
  unfold ticks_to_chunk_string padded_decimal
  simp [substr_before_to_string _ h]

theorem round_half_even_nat (z : ℕ) : round_half_even ((z : ℚ) * 1000000) / 1000000 = z := by
  apply round_half_even_div
  · exact le_refl _
  · linarith

/-- The function std_round on a non-negative number: the floor when the fraction is below
one half, the next integer otherwise. -/
theorem std_round_nonneg (q : ℚ) (hq : 0 ≤ q) :
    0 ≤ std_round q ∧
    (Int.fract q < 1 / 2 → std_round q = ⌊q⌋) ∧
    (1 / 2 ≤ Int.fract q → std_round q = ⌊q⌋ + 1) := by
  have h1 : (⌊q⌋ : ℚ) ≤ q := Int.floor_le q
  have h2 : q < (⌊q⌋ : ℚ) + 1 := Int.lt_floor_add_one q
  have hf : Int.fract q = q - ⌊q⌋ := rfl
  unfold std_round
  rw [if_pos hq]
  refine ⟨Int.floor_nonneg.mpr (by linarith), ?_, ?_⟩
  · intro h
    rw [Int.floor_eq_iff]
    constructor <;> linarith
  · intro h
    rw [Int.floor_eq_iff]
    push_cast
    constructor <;> linarith

/-- The chunk string of the frame chunk: the guard returns 00 when rounding went up. -/
theorem ticks_to_chunk_string_round (n k : ℚ) (h : 0 ≤ n / k) :
    ticks_to_chunk_string n k true
      = if Int.fract (n / k) < 1 / 2 then padded_decimal ⌊n / k⌋.toNat else "00".toList := by
  have hr := std_round_nonneg (n / k) h
  have h1 : (⌊n / k⌋ : ℚ) ≤ n / k := Int.floor_le _
  have h2 : n / k < (⌊n / k⌋ : ℚ) + 1 := Int.lt_floor_add_one _
  have hfl : 0 ≤ ⌊n / k⌋ := Int.floor_nonneg.mpr h
  have hcast : ((⌊n / k⌋.toNat : ℕ) : ℚ) = (⌊n / k⌋ : ℚ) := by
    have : ((⌊n / k⌋.toNat : ℕ) : ℤ) = ⌊n / k⌋ := Int.toNat_of_nonneg hfl
    exact_mod_cast this
  unfold ticks_to_chunk_string
  simp only [if_true]
  by_cases hc : Int.fract (n / k) < 1 / 2
  · rw [if_pos hc, hr.2.1 hc, if_neg (not_lt.mpr h1)]
    have hd : (0 : ℚ) ≤ (⌊n / k⌋ : ℚ) := by exact_mod_cast hfl
    rw [substr_before_to_string _ hd, ← hcast, round_half_even_nat]
    unfold padded_decimal
    simp
  · rw [if_neg hc, hr.2.2 (not_lt.mp hc)]
    push_cast
    rw [if_pos h2]

/-- The function std_fmod on a non-negative number and a positive divisor. -/
theorem std_fmod_nonneg (n k : ℚ) (hn : 0 ≤ n) (hk : 0 < k) :
    std_fmod n k = n - k * ⌊n / k⌋ ∧ 0 ≤ std_fmod n k ∧ std_fmod n k < k := by
  have hq : 0 ≤ n / k := div_nonneg hn hk.le
  have h1 : (⌊n / k⌋ : ℚ) ≤ n / k := Int.floor_le _
  have h2 : n / k < (⌊n / k⌋ : ℚ) + 1 := Int.lt_floor_add_one _
  have e : std_fmod n k = n - k * ⌊n / k⌋ := by unfold std_fmod; rw [if_pos hq]
  have hn2 : n = k * (n / k) := by field_simp
  refine ⟨e, ?_, ?_⟩
  · rw [e]; nlinarith
  · rw [e]; nlinarith

/-! ## Formatting a tick value built from components -/

/-- One step of the formatter: a chunk weight `k`, a whole count `H` and a remainder `r`
whose ratio to `k` is below `1 - 1/2000000` give the field `H` and leave `r`. -/
theorem chunk_step (n k r : ℚ) (H : ℕ) (hk : 0 < k) (hr0 : 0 ≤ r)
    (hr : r * 2000000 < k * 1999999) (hn : n = k * H + r) :
    ticks_to_chunk_string n k false = padded_decimal H ∧ std_fmod n k = r := by
  have hH : (0 : ℚ) ≤ H := Nat.cast_nonneg H
  have hq : n / k = H + r / k := by rw [hn]; field_simp; ring
  have hrk0 : 0 ≤ r / k := div_nonneg hr0 hk.le
  have hrk : r / k * 2000000 < 1999999 := by
    rw [div_mul_eq_mul_div, div_lt_iff₀ hk]; linarith
  have hq0 : 0 ≤ n / k := by rw [hq]; linarith
  have hn0 : 0 ≤ n := by rw [hn]; nlinarith
  constructor
  · rw [ticks_to_chunk_string_plain n k hq0, round_half_even_div (n / k) H]
    · rw [hq]; linarith
    · rw [hq]; linarith
  · have hfl : ⌊n / k⌋ = (H : ℤ) := by
      rw [Int.floor_eq_iff, hq]
      push_cast
      constructor <;> linarith
    rw [(std_fmod_nonneg n k hn0 hk).1, hfl, hn]
    push_cast
    ring

theorem fps_to_single_tick_ok (fps : ℚ) (h : 0 < fps) :
    fps_to_single_tick fps = .ok (1 / fps / 100) := by
  simp [fps_to_single_tick, VTM_ASSERT, h, bind, Except.bind, pure, Except.pure]

theorem fps_to_ticks_by_chunk_ok (fps : ℚ) (h : 0 < fps) :
    fps_to_ticks_by_chunk fps = .ok (36, 3 / 5, 1 / 100, 1 / fps / 100) := by
  have hne : fps ≠ 0 := ne_of_gt h
  have e1 : 1 / fps / 100 * 60 * 60 * fps = 36 := by field_simp; ring
  have e2 : 1 / fps / 100 * 60 * fps = 3 / 5 := by field_simp; ring
  have e3 : 1 / fps / 100 * fps = 1 / 100 := by field_simp
  simp only [fps_to_ticks_by_chunk, fps_to_single_tick_ok fps h, VTM_ASSERT, gt_iff_lt, h,
    decide_True, if_true, bind, Except.bind, pure, Except.pure, e1, e2, e3]

theorem chunks_to_total_ticks_ok (h m s f fps : ℚ) (hfps : 0 < fps) :
    chunks_to_total_ticks (h, m, s, f) fps
      = .ok (1 / fps / 100 * ((((h * 60 * 60) + (m * 60) + s) * fps) + f)) := by
  simp only [chunks_to_total_ticks, fps_to_single_tick_ok fps hfps, VTM_ASSERT, gt_iff_lt, hfps,
    decide_True, if_true, bind, Except.bind, pure, Except.pure]

/-- The four fields printed for the tick value of in-range components. -/
theorem ticks_to_chunks_hmsf (fps : ℚ) (h m s f : ℕ) (hfps : 0 < fps) (hm : m < 60)
    (hs : s < 60) (hf : (f : ℚ) * 100 ≤ 99 * fps) :
    ticks_to_chunks (1 / fps / 100 * (((((h : ℚ) * 60 * 60) + ((m : ℚ) * 60) + s) * fps) + f)) fps
      = .ok (padded_decimal h, padded_decimal m, padded_decimal s, padded_decimal f) := by
  have hne : fps ≠ 0 := ne_of_gt hfps
  have hm1 : (m : ℚ) ≤ 59 := by exact_mod_cast Nat.le_of_lt_succ hm
  have hs1 : (s : ℚ) ≤ 59 := by exact_mod_cast Nat.le_of_lt_succ hs
  have hm0 : (0 : ℚ) ≤ m := Nat.cast_nonneg m
  have hs0 : (0 : ℚ) ≤ s := Nat.cast_nonneg s
  have hf0 : (0 : ℚ) ≤ f := Nat.cast_nonneg f
  have hft : 0 < 1 / fps / 100 := by positivity
  -- the weight of the frames, at most 99/10000
  have hg0 : 0 ≤ 1 / fps / 100 * (f : ℚ) := by positivity
  have hg1 : 1 / fps / 100 * (f : ℚ) ≤ 99 / 10000 := by
    rw [div_div, one_div_mul_eq_div, div_le_iff₀ (by positivity)]
    linarith
  set g : ℚ := 1 / fps / 100 * (f : ℚ) with hg
  have hT : 1 / fps / 100 * (((((h : ℚ) * 60 * 60) + ((m : ℚ) * 60) + s) * fps) + f)
      = 36 * h + (3 / 5 * m + (1 / 100 * s + g)) := by
    rw [hg]; field_simp; ring
  have st1 := chunk_step (36 * h + (3 / 5 * m + (1 / 100 * s + g))) 36
    (3 / 5 * m + (1 / 100 * s + g)) h (by norm_num) (by positivity) (by linarith) rfl
  have st2 := chunk_step (3 / 5 * m + (1 / 100 * s + g)) (3 / 5) (1 / 100 * s + g) m
    (by norm_num) (by positivity) (by linarith) rfl
  have st3 := chunk_step (1 / 100 * s + g) (1 / 100) g s
    (by norm_num) hg0 (by linarith) rfl
  have hq : g / (1 / fps / 100) = (f : ℚ) := by rw [hg]; field_simp
  have st4 : ticks_to_chunk_string g (1 / fps / 100) true = padded_decimal f := by
    rw [ticks_to_chunk_string_round g _ (by rw [hq]; exact hf0), hq]
    simp
  rw [hT]
  simp only [ticks_to_chunks, fps_to_ticks_by_chunk_ok fps hfps, VTM_ASSERT, gt_iff_lt, hfps,
    decide_True, if_true, bind, Except.bind, pure, Except.pure, st1.1, st1.2, st2.1, st2.2,
    st3.1, st3.2, st4]

theorem ticks_to_string_hmsf (fps : ℚ) (h m s f : ℕ) (hfps : 0 < fps) (hm : m < 60)
    (hs : s < 60) (hf : (f : ℚ) * 100 ≤ 99 * fps) :
    ticks_to_string (1 / fps / 100 * (((((h : ℚ) * 60 * 60) + ((m : ℚ) * 60) + s) * fps) + f)) fps
      = .ok (layout (padded_decimal h) (padded_decimal m) (padded_decimal s)
          (padded_decimal f) ':') := by
  rw [ticks_to_string, ticks_to_chunks_hmsf fps h m s f hfps hm hs hf]
  simp [layout, bind, Except.bind, pure, Except.pure]

/-- The rates of the registry: positive, and a whole frame count below the rate is at most
99 hundredths of it. -/
theorem registry_rate (fps : format) (hfps : fps ≠ format.none) :
    0 < __fpsformat_value_to_float fps ∧
    ∀ f : ℕ, (f : ℚ) < __fpsformat_value_to_float fps →
      (f : ℚ) * 100 ≤ 99 * __fpsformat_value_to_float fps := by
  cases fps <;> simp only [__fpsformat_value_to_float, ne_eq, not_true_eq_false] at hfps ⊢
  all_goals
    refine ⟨by norm_num, ?_⟩
    intro f hf
  · have : f < 24 := by exact_mod_cast hf
    have : (f : ℚ) ≤ 23 := by exact_mod_cast Nat.le_of_lt_succ this
    linarith
  · have : f < 25 := by exact_mod_cast hf
    have : (f : ℚ) ≤ 24 := by exact_mod_cast Nat.le_of_lt_succ this
    linarith
  · have : f < 30 := by exact_mod_cast hf
    have : (f : ℚ) ≤ 29 := by exact_mod_cast Nat.le_of_lt_succ this
    linarith
  · have h30 : (f : ℚ) < 30 := by linarith
    have : f < 30 := by exact_mod_cast h30
    have : (f : ℚ) ≤ 29 := by exact_mod_cast Nat.le_of_lt_succ this
    linarith
  · have h30 : (f : ℚ) < 30 := by linarith
    have : f < 30 := by exact_mod_cast h30
    have : (f : ℚ) ≤ 29 := by exact_mod_cast Nat.le_of_lt_succ this
    linarith
  · have : f < 60 := by exact_mod_cast hf
    have : (f : ℚ) ≤ 59 := by exact_mod_cast Nat.le_of_lt_succ this
    linarith

/-! ## Construction from components, then formatting -/

theorem from_hmsf_ok (fps : format) (h m s f : ℕ) (hfps : 0 < __fpsformat_value_to_float fps) :
    __BasicTimecode.from_hmsf h m s f fps
      = .ok (__BasicTimecode.ctor_float
          (1 / __fpsformat_value_to_float fps / 100
            * (((((h : ℚ) * 60 * 60) + ((m : ℚ) * 60) + s) * __fpsformat_value_to_float fps) + f))
          fps) := by
  simp only [__BasicTimecode.from_hmsf, VTM_ASSERT, ge_iff_le, Nat.cast_nonneg, decide_True,
    if_true, bind, Except.bind, pure, Except.pure, Int.cast_natCast,
    chunks_to_total_ticks_ok _ _ _ _ _ hfps]

theorem as_string_ctor_float (x : ℚ) (fps : format) :
    (__BasicTimecode.ctor_float x fps).as_string
      = ticks_to_string x (__fpsformat_value_to_float fps) := by
  simp [__BasicTimecode.as_string, __BasicTimecode.ctor_float, __BasicTimecode.set_value_float,
    __BasicTimecode.default, __BasicTimecode.as_float, bind, Except.bind]

/-- With every operation taken as exact: for every frame-rate format other than `none` and
all components `h < 100`, `m < 60`, `s < 60`, `f` below the rate,
`from_hmsf(h,m,s,f,fps).as_string()` is the four values, each written with two decimal
digits, joined by colons. -/
theorem from_hmsf_as_string_exact (fps : format) (h m s f : ℕ) (hfps : fps ≠ format.none)
    (hh : h < 100) (hm : m < 60) (hs : s < 60)
    (hf : (f : ℚ) < __fpsformat_value_to_float fps) :
    (__BasicTimecode.from_hmsf h m s f fps >>= __BasicTimecode.as_string)
      = .ok (layout (two_digits h) (two_digits m) (two_digits s) (two_digits f) ':') := by
  obtain ⟨hpos, hfr⟩ := registry_rate fps hfps
  have hf99 := hfr f hf
  have hf100 : f < 100 := by
    have h60 : __fpsformat_value_to_float fps ≤ 60 := by
      cases fps <;> simp only [__fpsformat_value_to_float] <;> norm_num
    have : (f : ℚ) < 100 := by linarith
    exact_mod_cast this
  rw [from_hmsf_ok fps h m s f hpos]
  show (__BasicTimecode.ctor_float _ fps).as_string = _
  rw [as_string_ctor_float, ticks_to_string_hmsf _ h m s f hpos hm hs hf99,
    padded_decimal_eq_two_digits h hh, padded_decimal_eq_two_digits m (by omega),
    padded_decimal_eq_two_digits s (by omega), padded_decimal_eq_two_digits f hf100]

/-- C1, as the program computes it: at 25 frames per second the in-range components
(0, 0, 0, 7) are formatted as `00:00:00:00`, not as `00:00:00:07`.  The tick value `n` and
the tick `k` of one frame are both rounded; their quotient is rounded to a number just
below 7, `std::round` gives 7, and the guard `d > n / k` of `ticks_to_chunk_string` returns
the initial `00`.  The example (1, 2, 3, 4) of the specification is formatted as claimed. -/
theorem C1_frame_lost_in_rounding :
    (x87.from_hmsf 0 0 0 7 format.fps_25 >>= x87.as_string) = .ok "00:00:00:00".toList
      ∧ layout (two_digits 0) (two_digits 0) (two_digits 0) (two_digits 7) ':'
          = "00:00:00:07".toList
      ∧ x87.chunks_to_total_ticks (0, 0, 0, 7) 25 = .ok (6611313076017503299 / 2 ^ 71)
      ∧ x87.fps_to_single_tick 25 = .ok (3777893186295716171 / 2 ^ 73)
      ∧ x87.fl ((6611313076017503299 / 2 ^ 71) / (3777893186295716171 / 2 ^ 73))
          = 16140901064495857663 / 2 ^ 61
      ∧ (16140901064495857663 / 2 ^ 61 : ℚ) < 7
      ∧ std_round (16140901064495857663 / 2 ^ 61) = 7
      ∧ x87.ticks_to_chunk_string (6611313076017503299 / 2 ^ 71) (3777893186295716171 / 2 ^ 73)
          true = "00".toList
      ∧ (x87.from_hmsf 1 2 3 4 format.fps_25 >>= x87.as_string) = .ok "01:02:03:04".toList := by
  decide!

/-! ## Splitting and the validity predicate -/

theorem std_isdigit_eq (c : Char) : std_isdigit c = c.isDigit := by
  unfold std_isdigit Char.isDigit
  rfl

theorem is_tcstring_dropframe_iff (t : string_t) : is_tcstring_dropframe t = true ↔ ';' ∈ t := by
  unfold is_tcstring_dropframe
  rw [List.any_eq_true]
  constructor
  · rintro ⟨x, hx, h⟩
    have : x = ';' := by simpa using h
    rw [← this]; exact hx
  · intro h
    exact ⟨';', h, by simp⟩

theorem tcstring_delim_eq (t : string_t) :
    tcstring_delim t = if ';' ∈ t then ';' else ':' := by
  unfold tcstring_delim
  by_cases h : ';' ∈ t
  · rw [if_pos h, if_pos ((is_tcstring_dropframe_iff t).mpr h)]
  · rw [if_neg h, if_neg (fun h2 => h ((is_tcstring_dropframe_iff t).mp h2))]

theorem split_nonempty_ne_nil (d : Char) (l : List Char) : split_nonempty d l ≠ [] := by
  cases l with
  | nil => simp [split_nonempty]
  | cons c cs =>
    unfold split_nonempty
    split
    · simp
    · split <;> simp

theorem split_nonempty_no_delim (d : Char) (a : List Char) (ha : d ∉ a) :
    split_nonempty d a = [a] := by
  induction a with
  | nil => rfl
  | cons c cs ih =>
    have hc : c ≠ d := fun h => ha (h ▸ List.mem_cons_self _ _)
    have hcs : d ∉ cs := fun h => ha (List.mem_cons_of_mem _ h)
    rw [split_nonempty, if_neg hc, ih hcs]

theorem split_nonempty_append (d : Char) (a rest : List Char) (ha : d ∉ a) :
    split_nonempty d (a ++ d :: rest) = a :: split_nonempty d rest := by
  induction a with
  | nil => simp [split_nonempty]
  | cons c cs ih =>
    have hc : c ≠ d := fun h => ha (h ▸ List.mem_cons_self _ _)
    have hcs : d ∉ cs := fun h => ha (List.mem_cons_of_mem _ h)
    rw [List.cons_append, split_nonempty, if_neg hc, ih hcs]

/-- Four fields without the delimiter, joined by it, split back into the four fields. -/
theorem split_view_joined (d : Char) (a b c e : List Char) (ha : d ∉ a) (hb : d ∉ b)
    (hc : d ∉ c) (he : d ∉ e) :
    split_view (a ++ d :: b ++ d :: c ++ d :: e) d = [a, b, c, e] := by
  have hne : a ++ d :: b ++ d :: c ++ d :: e ≠ [] := by simp
  unfold split_view
  rw [if_neg hne]
  have e1 : a ++ d :: b ++ d :: c ++ d :: e = a ++ d :: (b ++ d :: (c ++ d :: e)) := by simp
  rw [e1, split_nonempty_append d a _ ha, split_nonempty_append d b _ hb,
    split_nonempty_append d c _ hc, split_nonempty_no_delim d e he]

theorem valid_tcstring_chars_true (sv : List Char) :
    valid_tcstring_chars true sv
      = if ∀ c ∈ sv, std_isdigit c = true then some true else Option.none := by
  induction sv with
  | nil => simp [valid_tcstring_chars]
  | cons c cs ih =>
    unfold valid_tcstring_chars
    by_cases hc : std_isdigit c = true
    · simp [hc, ih]
    · simp [hc]

theorem valid_tcstring_chars_false (sv : List Char) :
    valid_tcstring_chars false sv = if sv = [] then some false else Option.none := by
  cases sv with
  | nil => simp [valid_tcstring_chars]
  | cons c cs => simp [valid_tcstring_chars]

theorem valid_tcstring_loop_false (n : ℕ) (chunks : List string_t) :
    valid_tcstring_loop false n chunks ≠ .ok true := by
  induction chunks generalizing n with
  | nil => simp [valid_tcstring_loop]
  | cons sv rest ih =>
    unfold valid_tcstring_loop
    split
    · simp
    · simp only [Bool.false_and, ite_self, valid_tcstring_chars_false]
      by_cases h : sv = []
      · simp only [h, if_true]; exact ih _
      · simp [h]

theorem valid_tcstring_loop_cons (n size : ℕ) (sv : string_t) (rest : List string_t)
    (hs : chunk_sizes[n]? = some size) :
    valid_tcstring_loop true n (sv :: rest) = .ok true
      ↔ (size > 0 → sv.length = size) ∧ (∀ c ∈ sv, std_isdigit c = true)
          ∧ valid_tcstring_loop true (n + 1) rest = .ok true := by
  rw [valid_tcstring_loop, hs]
  simp only [Bool.true_and]
  by_cases hsz : size > 0
  · simp only [hsz, if_true, forall_true_left]
    by_cases hl : sv.length = size
    · simp only [hl, decide_True, valid_tcstring_chars_true, true_and]
      by_cases hd : ∀ c ∈ sv, std_isdigit c = true
      · rw [if_pos hd]
        exact ⟨fun h => ⟨hd, h⟩, fun h => h.2⟩
      · rw [if_neg hd]
        exact ⟨fun h => by simp at h, fun h => absurd h.1 hd⟩
    · simp only [hl, decide_False, valid_tcstring_chars_false, false_and, iff_false]
      by_cases h : sv = []
      · simp only [h, if_true]; exact valid_tcstring_loop_false _ _
      · simp [h]
  · simp only [hsz, if_false, valid_tcstring_chars_true, false_implies, true_and]
    by_cases hd : ∀ c ∈ sv, std_isdigit c = true
    · rw [if_pos hd]
      exact ⟨fun h => ⟨hd, h⟩, fun h => h.2⟩
    · rw [if_neg hd]
      exact ⟨fun h => by simp at h, fun h => absurd h.1 hd⟩

theorem valid_tcstring_loop_beyond (v : Bool) (n : ℕ) (sv : string_t) (rest : List string_t)
    (hs : chunk_sizes[n]? = Option.none) :
    valid_tcstring_loop v n (sv :: rest) = .error Fault.undefined := by
  rw [valid_tcstring_loop, hs]

/-- The loop of the predicate accepts exactly four chunks of digits whose last three have
two characters. -/
theorem valid_tcstring_loop_iff (chunks : List string_t) :
    valid_tcstring_loop true 0 chunks = .ok true
      ↔ ∃ a b c d, chunks = [a, b, c, d] ∧ b.length = 2 ∧ c.length = 2 ∧ d.length = 2
          ∧ ∀ x ∈ a ++ b ++ c ++ d, std_isdigit x = true := by
  have s0 : chunk_sizes[0]? = some 0 := rfl
  have s1 : chunk_sizes[1]? = some 2 := rfl
  have s2 : chunk_sizes[2]? = some 2 := rfl
  have s3 : chunk_sizes[3]? = some 2 := rfl
  have s4 : chunk_sizes[4]? = Option.none := rfl
  rcases chunks with _ | ⟨a, _ | ⟨b, _ | ⟨c, _ | ⟨d, _ | ⟨e, rest⟩⟩⟩⟩⟩
  · simp [valid_tcstring_loop]
  · rw [valid_tcstring_loop_cons 0 0 a _ s0]
    simp [valid_tcstring_loop]
  · rw [valid_tcstring_loop_cons 0 0 a _ s0, valid_tcstring_loop_cons 1 2 b _ s1]
    simp [valid_tcstring_loop]
  · rw [valid_tcstring_loop_cons 0 0 a _ s0, valid_tcstring_loop_cons 1 2 b _ s1,
      valid_tcstring_loop_cons 2 2 c _ s2]
    simp [valid_tcstring_loop]
  · rw [valid_tcstring_loop_cons 0 0 a _ s0, valid_tcstring_loop_cons 1 2 b _ s1,
      valid_tcstring_loop_cons 2 2 c _ s2, valid_tcstring_loop_cons 3 2 d _ s3]
    simp only [valid_tcstring_loop, Bool.true_and, decide_True, List.cons.injEq, and_true,
      List.mem_append, gt_iff_lt, Nat.lt_irrefl, false_implies, true_and, Nat.ofNat_pos,
      forall_true_left]
    constructor
    · rintro ⟨ha, hb, hbd, hc, hcd, hd, hdd⟩
      refine ⟨a, b, c, d, ⟨rfl, rfl, rfl, rfl⟩, hb, hc, hd, ?_⟩
      intro x hx
      rcases hx with ((hx | hx) | hx) | hx
      · exact ha x hx
      · exact hbd x hx
      · exact hcd x hx
      · exact hdd x hx
    · rintro ⟨a2, b2, c2, d2, ⟨rfl, rfl, rfl, rfl⟩, hb, hc, hd, hall⟩
      exact ⟨fun x hx => hall x (Or.inl (Or.inl (Or.inl hx))), hb,
        fun x hx => hall x (Or.inl (Or.inl (Or.inr hx))), hc,
        fun x hx => hall x (Or.inl (Or.inr hx)), hd, fun x hx => hall x (Or.inr hx)⟩
  · rw [valid_tcstring_loop_cons 0 0 a _ s0, valid_tcstring_loop_cons 1 2 b _ s1,
      valid_tcstring_loop_cons 2 2 c _ s2, valid_tcstring_loop_cons 3 2 d _ s3,
      valid_tcstring_loop_beyond true 4 e rest s4]
    simp

theorem valid_tcstring_iff (t : string_t) :
    valid_tcstring t = .ok true
      ↔ t ≠ [] ∧ ∃ a b c d, split_view t (if ';' ∈ t then ';' else ':') = [a, b, c, d]
          ∧ b.length = 2 ∧ c.length = 2 ∧ d.length = 2
          ∧ ∀ x ∈ a ++ b ++ c ++ d, x.isDigit = true := by
  unfold valid_tcstring
  simp only [← std_isdigit_eq]
  cases t with
  | nil => simp
  | cons c cs =>
    simp only [List.isEmpty_cons, Bool.not_false, Bool.not_true, Bool.false_eq_true, if_false,
      ne_eq, reduceCtorEq, not_false_eq_true, true_and]
    rw [valid_tcstring_loop_iff, tcstring_delim_eq]

/-! ## Parsing a timecode string -/

theorem tcstring_to_ticks_ok (text : string_t) (fps : ℚ) (a b c d : string_t) (hfps : 0 < fps)
    (hv : valid_tcstring text = .ok true)
    (hsplit : split_view text (tcstring_delim text) = [a, b, c, d]) :
    tcstring_to_ticks text fps
      = .ok (0 + string_to_float a * 36 + string_to_float b * (3 / 5)
          + string_to_float c * (1 / 100) + string_to_float d * (1 / fps / 100)) := by
  simp [tcstring_to_ticks, hv, VTM_ASSERT, fps_to_ticks_by_chunk_ok fps hfps, hsplit,
    tcstring_to_ticks_loop, bind, Except.bind, pure, Except.pure]

/-- The sum of field times chunk weight is the closed formula of chunks_to_total_ticks. -/
theorem weighted_sum_eq (fps h m s f : ℚ) (hfps : 0 < fps) :
    0 + h * 36 + m * (3 / 5) + s * (1 / 100) + f * (1 / fps / 100)
      = 1 / fps / 100 * ((((h * 60 * 60) + (m * 60) + s) * fps) + f) := by
  have hne : fps ≠ 0 := ne_of_gt hfps
  field_simp
  ring

/-- With every operation taken as exact: for every rate `fps > 0` and every valid
colon-separated timecode string, the sum of field times chunk weight computed by
`tcstring_to_ticks` is the value that `chunks_to_total_ticks` gives for the numbers the four
fields denote, namely `single_tick(fps) * (((h*3600 + m*60 + s)*fps) + f)`. -/
theorem string_ticks_eq_hmsf_ticks_exact (fps : ℚ) (text : string_t) (hfps : 0 < fps)
    (hv : valid_tcstring text = .ok true) (hcolon : ';' ∉ text) :
    ∃ a b c d : string_t, split_view text ':' = [a, b, c, d]
      ∧ tcstring_to_ticks text fps
          = chunks_to_total_ticks ((digits_value a : ℚ), (digits_value b : ℚ),
              (digits_value c : ℚ), (digits_value d : ℚ)) fps
      ∧ tcstring_to_ticks text fps
          = .ok (1 / fps / 100 * (((((digits_value a : ℚ) * 3600 + (digits_value b : ℚ) * 60
              + (digits_value c : ℚ)) * fps) + (digits_value d : ℚ)))) := by
  obtain ⟨_, a, b, c, d, hsplit, _, _, _, _⟩ := (valid_tcstring_iff text).mp hv
  rw [if_neg hcolon] at hsplit
  have hsplit2 : split_view text (tcstring_delim text) = [a, b, c, d] := by
    rw [tcstring_delim_eq, if_neg hcolon]; exact hsplit
  refine ⟨a, b, c, d, hsplit, ?_, ?_⟩
  · rw [tcstring_to_ticks_ok text fps a b c d hfps hv hsplit2,
      chunks_to_total_ticks_ok _ _ _ _ _ hfps, weighted_sum_eq _ _ _ _ _ hfps]
    rfl
  · rw [tcstring_to_ticks_ok text fps a b c d hfps hv hsplit2, weighted_sum_eq _ _ _ _ _ hfps]
    unfold string_to_float
    congr 2
    ring

/-- C3, as the program computes it: at 25 frames per second the valid string `00:00:01:01`,
whose fields denote 0, 0, 1, 1, has the tick value `12278152855461077555 / 2 ^ 70` by
`tcstring_to_ticks` (the sum of field times chunk weight) and the components (0, 0, 1, 1)
have the larger tick value `3069538213865269389 / 2 ^ 68` by `chunks_to_total_ticks` (the
closed formula); the Timecodes of `from_string` and `from_hmsf` compare unequal. -/
theorem C3_string_ticks_differ_from_hmsf_ticks :
    valid_tcstring "00:00:01:01".toList = .ok true
      ∧ split_view "00:00:01:01".toList (tcstring_delim "00:00:01:01".toList)
          = ["00".toList, "00".toList, "01".toList, "01".toList]
      ∧ string_to_float "00".toList = 0 ∧ string_to_float "01".toList = 1
      ∧ x87.tcstring_to_ticks "00:00:01:01".toList 25 = .ok (12278152855461077555 / 2 ^ 70)
      ∧ x87.chunks_to_total_ticks (0, 0, 1, 1) 25 = .ok (3069538213865269389 / 2 ^ 68)
      ∧ (12278152855461077555 / 2 ^ 70 : ℚ) < 3069538213865269389 / 2 ^ 68
      ∧ x87.tcstring_to_ticks "00:00:01:01".toList 25 ≠ x87.chunks_to_total_ticks (0, 0, 1, 1) 25
      ∧ (do
          let a ← x87.from_string "00:00:01:01".toList format.fps_25
          let b ← x87.from_hmsf 0 0 1 1 format.fps_25
          x87.operator_eq a b) = .ok false := by
  decide!

/-- C4: `valid_tcstring(t)` is true exactly when `t` is non-empty, splitting `t` on `;` (when
`t` contains one) or else on `:` yields exactly four fields, the last three fields have
exactly two characters, and every character of every field is a decimal digit; the hour
field may have any length. -/
theorem C4_valid_tcstring_characterisation :
    (∀ t : string_t, valid_tcstring t = .ok true
      ↔ t ≠ [] ∧ ∃ a b c d, split_view t (if ';' ∈ t then ';' else ':') = [a, b, c, d]
          ∧ b.length = 2 ∧ c.length = 2 ∧ d.length = 2
          ∧ ∀ x ∈ a ++ b ++ c ++ d, x.isDigit = true)
    ∧ valid_tcstring "00:00:00:00".toList = .ok true
    ∧ valid_tcstring "0:00:00:00".toList = .ok true
    ∧ valid_tcstring "00:00:00:0".toList = .ok false
    ∧ valid_tcstring "".toList = .ok false
    ∧ valid_tcstring "aa:00:00:00".toList = .ok false :=
  ⟨valid_tcstring_iff, by decide, by decide, by decide, by decide, by decide⟩

/-! ## Strings of two-digit fields -/

theorem isDigit_digitChar (c : Char) (h : c.isDigit = true) :
    ∃ d, d < 10 ∧ c = Nat.digitChar d := by
  have h1 : 48 ≤ c.toNat ∧ c.toNat ≤ 57 := by
    unfold Char.isDigit at h
    simp only [Bool.and_eq_true, decide_eq_true_eq, ge_iff_le] at h
    exact ⟨h.1, h.2⟩
  have h2 : c = Char.ofNat c.toNat := (Char.ofNat_toNat c).symm
  obtain ⟨lo, hi⟩ := h1
  refine ⟨c.toNat - 48, by omega, ?_⟩
  rw [h2]
  generalize c.toNat = n at lo hi
  interval_cases n <;> rfl

theorem two_digits_of_digitChars : ∀ d1, d1 < 10 → ∀ d2, d2 < 10 →
    digits_value [Nat.digitChar d1, Nat.digitChar d2] < 100
      ∧ two_digits (digits_value [Nat.digitChar d1, Nat.digitChar d2])
          = [Nat.digitChar d1, Nat.digitChar d2] := by
  decide

/-- A field of exactly two decimal digits denotes a number below one hundred and is the
two-digit rendering of that number. -/
theorem two_digit_field (a : string_t) (hlen : a.length = 2)
    (hdig : ∀ x ∈ a, x.isDigit = true) :
    digits_value a < 100 ∧ two_digits (digits_value a) = a := by
  rcases a with _ | ⟨c1, _ | ⟨c2, _ | ⟨c3, rest⟩⟩⟩
  · simp at hlen
  · simp at hlen
  · obtain ⟨d1, hd1, rfl⟩ := isDigit_digitChar c1 (hdig c1 (by simp))
    obtain ⟨d2, hd2, rfl⟩ := isDigit_digitChar c2 (hdig c2 (by simp))
    exact two_digits_of_digitChars d1 hd1 d2 hd2
  · simp at hlen

theorem isDigit_not_mem (a : string_t) (hdig : ∀ x ∈ a, x.isDigit = true) :
    ':' ∉ a ∧ ';' ∉ a := by
  constructor
  · intro h; exact absurd (hdig _ h) (by decide)
  · intro h; exact absurd (hdig _ h) (by decide)

/-- A string of four fields of digits, the last three of two digits, joined by one
delimiter, `:` or `;`, is valid and splits into its fields. -/
theorem valid_tcstring_fields (d : Char) (hd : d = ':' ∨ d = ';') (a b c e : string_t)
    (hb : b.length = 2) (hc : c.length = 2) (he : e.length = 2)
    (hdig : ∀ x ∈ a ++ b ++ c ++ e, x.isDigit = true) :
    valid_tcstring (a ++ d :: b ++ d :: c ++ d :: e) = .ok true
      ∧ split_view (a ++ d :: b ++ d :: c ++ d :: e)
          (tcstring_delim (a ++ d :: b ++ d :: c ++ d :: e)) = [a, b, c, e] := by
  have da : ∀ x ∈ a, x.isDigit = true := fun x hx => hdig x (by simp [hx])
  have db : ∀ x ∈ b, x.isDigit = true := fun x hx => hdig x (by simp [hx])
  have dc : ∀ x ∈ c, x.isDigit = true := fun x hx => hdig x (by simp [hx])
  have de : ∀ x ∈ e, x.isDigit = true := fun x hx => hdig x (by simp [hx])
  obtain ⟨a1, a2⟩ := isDigit_not_mem a da
  obtain ⟨b1, b2⟩ := isDigit_not_mem b db
  obtain ⟨c1, c2⟩ := isDigit_not_mem c dc
  obtain ⟨e1, e2⟩ := isDigit_not_mem e de
  set text := a ++ d :: b ++ d :: c ++ d :: e with htext
  have hdelim : (if ';' ∈ text then ';' else ':') = d := by
    rcases hd with hd | hd
    · have : ';' ∉ text := by
        rw [htext, hd]
        simp only [List.mem_append, List.mem_cons, not_or]
        exact ⟨⟨⟨a2, by decide, b2⟩, by decide, c2⟩, by decide, e2⟩
      rw [if_neg this, hd]
    · have : ';' ∈ text := by
        rw [htext, hd]
        simp
      rw [if_pos this, hd]
  have hnot : d ∉ a ∧ d ∉ b ∧ d ∉ c ∧ d ∉ e := by
    rcases hd with hd | hd <;> rw [hd]
    · exact ⟨a1, b1, c1, e1⟩
    · exact ⟨a2, b2, c2, e2⟩
  have hsplit : split_view text d = [a, b, c, e] :=
    split_view_joined d _ _ _ _ hnot.1 hnot.2.1 hnot.2.2.1 hnot.2.2.2
  constructor
  · rw [valid_tcstring_iff, hdelim]
    exact ⟨by rw [htext]; simp, a, b, c, e, hsplit, hb, hc, he, hdig⟩
  · rw [tcstring_delim_eq, hdelim]
    exact hsplit

theorem from_string_fields (d : Char) (hd : d = ':' ∨ d = ';') (a b c e : string_t)
    (hb : b.length = 2) (hc : c.length = 2) (he : e.length = 2)
    (hdig : ∀ x ∈ a ++ b ++ c ++ e, x.isDigit = true) (fps : format)
    (hfps : 0 < __fpsformat_value_to_float fps) :
    __BasicTimecode.from_string (a ++ d :: b ++ d :: c ++ d :: e) fps
      = .ok (__BasicTimecode.ctor_float
          (1 / __fpsformat_value_to_float fps / 100
            * (((((digits_value a : ℚ) * 60 * 60) + ((digits_value b : ℚ) * 60)
                + (digits_value c : ℚ)) * __fpsformat_value_to_float fps)
              + (digits_value e : ℚ)))
          fps) := by
  obtain ⟨hv, hsplit⟩ := valid_tcstring_fields d hd a b c e hb hc he hdig
  have ht := tcstring_to_ticks_ok _ _ _ _ _ _ hfps hv hsplit
  rw [weighted_sum_eq _ _ _ _ _ hfps] at ht
  simp only [string_to_float] at ht
  simp only [__BasicTimecode.from_string, hv, ht, VTM_ASSERT, if_true, bind, Except.bind, pure,
    Except.pure]

/-- With every operation taken as exact: for every frame-rate format other than `none` and
every string `HH:MM:SS:FF` made of four fields of two decimal digits with minutes and
seconds below 60 and frames below the rate, `from_string(s, fps).as_string()` is `s`
again. -/
theorem from_string_as_string_exact (fps : format) (hh mm ss ff : string_t)
    (hfps : fps ≠ format.none)
    (hlen : hh.length = 2 ∧ mm.length = 2 ∧ ss.length = 2 ∧ ff.length = 2)
    (hdig : ∀ x ∈ hh ++ mm ++ ss ++ ff, x.isDigit = true)
    (hm : digits_value mm < 60) (hs : digits_value ss < 60)
    (hf : (digits_value ff : ℚ) < __fpsformat_value_to_float fps) :
    (__BasicTimecode.from_string (layout hh mm ss ff ':') fps >>= __BasicTimecode.as_string)
      = .ok (layout hh mm ss ff ':') := by
  obtain ⟨hpos, hfr⟩ := registry_rate fps hfps
  have hf99 := hfr _ hf
  obtain ⟨h1, h2⟩ := two_digit_field hh hlen.1 (fun x hx => hdig x (by simp [hx]))
  obtain ⟨m1, m2⟩ := two_digit_field mm hlen.2.1 (fun x hx => hdig x (by simp [hx]))
  obtain ⟨s1, s2⟩ := two_digit_field ss hlen.2.2.1 (fun x hx => hdig x (by simp [hx]))
  obtain ⟨f1, f2⟩ := two_digit_field ff hlen.2.2.2 (fun x hx => hdig x (by simp [hx]))
  have hfrom := from_string_fields ':' (Or.inl rfl) hh mm ss ff hlen.2.1 hlen.2.2.1 hlen.2.2.2
    hdig fps hpos
  unfold layout
  rw [hfrom]
  show (__BasicTimecode.ctor_float _ fps).as_string = _
  rw [as_string_ctor_float, ticks_to_string_hmsf _ _ _ _ _ hpos hm hs hf99,
    padded_decimal_eq_two_digits _ h1, padded_decimal_eq_two_digits _ m1,
    padded_decimal_eq_two_digits _ s1, padded_decimal_eq_two_digits _ f1, h2, m2, s2, f2]
  rfl

/-- C2, as the program computes it: at 25 frames per second the string `00:00:01:01`, four
two-digit fields in range, is read and formatted as `00:00:01:00`: the quotient for the
frame field is rounded to a number just below 1, and the guard of `ticks_to_chunk_string`
returns the initial `00`.  The witness `00:00:01:00` of the test is formatted as itself. -/
theorem C2_frame_lost_in_rounding :
    valid_tcstring "00:00:01:01".toList = .ok true
      ∧ (x87.from_string "00:00:01:01".toList format.fps_25 >>= x87.as_string)
          = .ok "00:00:01:00".toList
      ∧ (x87.from_string "00:00:01:00".toList default_value >>= x87.as_string)
          = .ok "00:00:01:00".toList := by
  decide!

/-- C5, as the code has it: the mixed form `HH:MM:SS;FF` is rejected, for instance
`00:00:00;00`, and no Timecode is constructed from it. -/
theorem C5_mixed_dropframe_form_rejected :
    valid_tcstring "00:00:00;00".toList = .ok false
      ∧ __BasicTimecode.from_string "00:00:00;00".toList format.fpsdf_29p97
          = .error Fault.assertion := by
  constructor
  · decide
  · decide

/-- C5, amended: the drop-frame string form that is accepted has `;` as every separator.
For all fields `HH`, `MM`, `SS`, `FF` of two decimal digits the string `HH;MM;SS;FF`
satisfies `valid_tcstring` and `from_string` constructs a Timecode from it at every format
other than `none`, while the mixed form `HH:MM:SS;FF` does not satisfy `valid_tcstring`. -/
theorem C5_dropframe_form_accepted (hh mm ss ff : string_t)
    (hlen : hh.length = 2 ∧ mm.length = 2 ∧ ss.length = 2 ∧ ff.length = 2)
    (hdig : ∀ x ∈ hh ++ mm ++ ss ++ ff, x.isDigit = true) :
    valid_tcstring (hh ++ ';' :: mm ++ ';' :: ss ++ ';' :: ff) = .ok true
      ∧ (∀ fps : format, fps ≠ format.none → ∃ tc : __BasicTimecode,
          __BasicTimecode.from_string (hh ++ ';' :: mm ++ ';' :: ss ++ ';' :: ff) fps = .ok tc)
      ∧ valid_tcstring (layout hh mm ss ff ';') = .ok false := by
  refine ⟨(valid_tcstring_fields ';' (Or.inr rfl) hh mm ss ff hlen.2.1 hlen.2.2.1 hlen.2.2.2
    hdig).1, ?_, ?_⟩
  · intro fps hfps
    exact ⟨_, from_string_fields ';' (Or.inr rfl) hh mm ss ff hlen.2.1 hlen.2.2.1 hlen.2.2.2
      hdig fps (registry_rate fps hfps).1⟩
  · obtain ⟨_, h2⟩ := isDigit_not_mem hh (fun x hx => hdig x (by simp [hx]))
    obtain ⟨_, m2⟩ := isDigit_not_mem mm (fun x hx => hdig x (by simp [hx]))
    obtain ⟨_, s2⟩ := isDigit_not_mem ss (fun x hx => hdig x (by simp [hx]))
    obtain ⟨_, f2⟩ := isDigit_not_mem ff (fun x hx => hdig x (by simp [hx]))
    have hin : ';' ∈ layout hh mm ss ff ';' := by
      simp [layout]
    have hno : ';' ∉ hh ++ ':' :: mm ++ ':' :: ss := by
      simp only [List.mem_append, List.mem_cons, not_or]
      exact ⟨⟨h2, by decide, m2⟩, by decide, s2⟩
    have hsplit : split_view (layout hh mm ss ff ';') ';'
        = [hh ++ ':' :: mm ++ ':' :: ss, ff] := by
      unfold split_view layout
      rw [if_neg (by simp), split_nonempty_append ';' _ _ hno, split_nonempty_no_delim ';' _ f2]
    have hbad : ¬ ∀ c ∈ hh ++ ':' :: mm ++ ':' :: ss, std_isdigit c = true := by
      intro hall
      have := hall ':' (by simp)
      revert this
      decide
    have hne : (layout hh mm ss ff ';').isEmpty = false := by
      simp [layout]
    have s0 : chunk_sizes[0]? = some 0 := rfl
    unfold valid_tcstring
    rw [tcstring_delim_eq, if_pos hin, hsplit]
    simp only [hne, Bool.not_false, Bool.not_true, Bool.false_eq_true, if_false]
    rw [valid_tcstring_loop]
    simp only [s0, Nat.lt_irrefl, gt_iff_lt, if_false, valid_tcstring_chars_true, if_neg hbad]

/-- C5, amended, at the fields `01`, `02`, `03`, `04`. -/
theorem C5_dropframe_form_accepted_witness :
    ("01".toList.length = 2 ∧ "02".toList.length = 2 ∧ "03".toList.length = 2
        ∧ "04".toList.length = 2)
      ∧ (∀ x ∈ "01".toList ++ "02".toList ++ "03".toList ++ "04".toList, x.isDigit = true)
      ∧ valid_tcstring "01;02;03;04".toList = .ok true
      ∧ (∀ fps : format, fps ≠ format.none → ∃ tc : __BasicTimecode,
          __BasicTimecode.from_string "01;02;03;04".toList fps = .ok tc)
      ∧ valid_tcstring "01:02:03;04".toList = .ok false :=
  ⟨by decide, by decide,
    C5_dropframe_form_accepted "01".toList "02".toList "03".toList "04".toList (by decide)
      (by decide)⟩

/-- C6, the code at a string of five fields: the fifth lookup `chunk_sizes[4]` reads past
the end of the four-entry table, so the call has no defined result. -/
theorem C6_valid_tcstring_five_fields :
    valid_tcstring "00:00:00:00:00".toList = .error Fault.undefined
      ∧ (split_view "00:00:00:00:00".toList ':').length = 5
      ∧ chunk_sizes[4]? = Option.none := by
  decide

/-! ## The shape of the formatter output -/

/-- C9, the code just below one hour: at 25 frames per second the tick value
`36 - 1/100000000` has the truncated quotients 0, 59 and 59, yet `ticks_to_string` prints
the hour field `01` and the minute field `60`, because `std::to_string` rounds each quotient
to six decimals before the digits after the point are cut off. -/
theorem C9_fields_rounded_up :
    fps_to_ticks_by_chunk 25 = .ok (36, 3 / 5, 1 / 100, 1 / 25 / 100)
      ∧ ⌊(3599999999 / 100000000 : ℚ) / 36⌋ = 0
      ∧ ⌊std_fmod (3599999999 / 100000000) 36 / (3 / 5)⌋ = 59
      ∧ ⌊std_fmod (std_fmod (3599999999 / 100000000) 36) (3 / 5) / (1 / 100)⌋ = 59
      ∧ ticks_to_string (3599999999 / 100000000) 25 = .ok "01:60:59:00".toList
      ∧ (__BasicTimecode.ctor_float (3599999999 / 100000000) format.fps_25).as_string
          = .ok "01:60:59:00".toList := by
  decide!

/-! ## Equality of timecodes -/

theorem as_signed_fault (t : __BasicTimecode) (e : Fault) (h : t.as_signed = .error e) :
    e = Fault.undefined := by
  unfold __BasicTimecode.as_signed at h
  split at h
  · cases h
  · cases h; rfl
  · unfold __BasicTimecode.float_to_int at h
    split at h
    · cases h
    · cases h; rfl
  · cases h; rfl

theorem as_float_fault (t : __BasicTimecode) (e : Fault) (h : t.as_float = .error e) :
    e = Fault.undefined := by
  unfold __BasicTimecode.as_float at h
  split at h
  · cases h
  · cases h; rfl
  · cases h
  · cases h; rfl

theorem operator_eq_iff (a b : __BasicTimecode) :
    __BasicTimecode.operator_eq a b = .ok true
      ↔ ∃ (i : ℤ) (f : ℚ), a.as_signed = .ok i ∧ b.as_signed = .ok i
          ∧ a.as_float = .ok f ∧ b.as_float = .ok f := by
  unfold __BasicTimecode.operator_eq __BasicTimecode.as_pair_int_float
  cases h1 : a.as_signed <;> cases h2 : a.as_float <;> cases h3 : b.as_signed <;>
    cases h4 : b.as_float <;>
    simp [bind, Except.bind, pure, Except.pure]
  exact ⟨fun h => ⟨h.1.symm, h.2.symm⟩, fun h => ⟨h.1.symm, h.2.symm⟩⟩

theorem operator_eq_comm (a b : __BasicTimecode) :
    __BasicTimecode.operator_eq a b = __BasicTimecode.operator_eq b a := by
  unfold __BasicTimecode.operator_eq __BasicTimecode.as_pair_int_float
  rcases h1 : a.as_signed with e1 | i1 <;> rcases h2 : a.as_float with e2 | f1 <;>
    rcases h3 : b.as_signed with e3 | i2 <;> rcases h4 : b.as_float with e4 | f2 <;>
    simp only [bind, Except.bind, pure, Except.pure]
  all_goals
    try rw [as_signed_fault _ _ h1]
    try rw [as_float_fault _ _ h2]
    try rw [as_signed_fault _ _ h3]
    try rw [as_float_fault _ _ h4]
  rw [decide_eq_decide.mpr (@eq_comm ℤ i1 i2),
    decide_eq_decide.mpr (@eq_comm ℚ f1 f2)]

/-- C10: `a == b` holds exactly when `as_signed` and `as_float` both agree on `a` and `b`;
consequently `==` is symmetric, two Timecodes built from the same integer compare equal, and
reassigning one of them to a different floating value makes them unequal. -/
theorem C10_equality :
    (∀ a b : __BasicTimecode, __BasicTimecode.operator_eq a b = .ok true
      ↔ ∃ (i : ℤ) (f : ℚ), a.as_signed = .ok i ∧ b.as_signed = .ok i
          ∧ a.as_float = .ok f ∧ b.as_float = .ok f)
    ∧ (∀ a b : __BasicTimecode,
        __BasicTimecode.operator_eq a b = __BasicTimecode.operator_eq b a)
    ∧ (∀ (n : ℤ) (p q : format),
        __BasicTimecode.operator_eq (__BasicTimecode.ctor_int n p) (__BasicTimecode.ctor_int n q)
          = .ok true)
    ∧ (∀ (n : ℤ) (p q : format) (x : ℚ), x ≠ (n : ℚ) →
        __BasicTimecode.operator_eq ((__BasicTimecode.ctor_int n p).assign_float x)
            (__BasicTimecode.ctor_int n q) ≠ .ok true
        ∧ __BasicTimecode.operator_eq (__BasicTimecode.ctor_int n q)
            ((__BasicTimecode.ctor_int n p).assign_float x) ≠ .ok true) := by
  refine ⟨operator_eq_iff, operator_eq_comm, ?_, ?_⟩
  · intro n p q
    rw [operator_eq_iff]
    exact ⟨n, (n : ℚ), rfl, rfl, rfl, rfl⟩
  · intro n p q x hx
    have key : __BasicTimecode.operator_eq ((__BasicTimecode.ctor_int n p).assign_float x)
        (__BasicTimecode.ctor_int n q) ≠ .ok true := by
      rw [Ne, operator_eq_iff]
      rintro ⟨i, f, _, _, h3, h4⟩
      have e3 : f = x := by
        have : (Except.ok x : Except Fault ℚ) = .ok f := h3
        exact (Except.ok.inj this).symm
      have e4 : f = (n : ℚ) := by
        have : (Except.ok (n : ℚ) : Except Fault ℚ) = .ok f := h4
        exact (Except.ok.inj this).symm
      exact hx (e3.symm.trans e4)
    exact ⟨key, by rw [operator_eq_comm]; exact key⟩

/-- C10 at the values of the test: two Timecodes built from 690420 are equal, and after one
is reassigned to 69.420 they are unequal. -/
theorem C10_equality_witness :
    __BasicTimecode.operator_eq (__BasicTimecode.ctor_int 690420 default_value)
        (__BasicTimecode.ctor_int 690420 default_value) = .ok true
      ∧ (6942 / 100 : ℚ) ≠ ((690420 : ℤ) : ℚ)
      ∧ __BasicTimecode.operator_eq
          ((__BasicTimecode.ctor_int 690420 default_value).assign_float (6942 / 100))
          (__BasicTimecode.ctor_int 690420 default_value) ≠ .ok true
      ∧ __BasicTimecode.operator_eq
          ((__BasicTimecode.ctor_int 690420 default_value).assign_float (6942 / 100))
          (__BasicTimecode.ctor_int 690420 default_value) = .ok false :=
  ⟨C10_equality.2.2.1 690420 default_value default_value, by norm_num,
    (C10_equality.2.2.2 690420 default_value default_value (6942 / 100) (by norm_num)).1,
    by decide!⟩

/-! ## Ordering and equality -/

theorem operator_eq_imp_spaceship_equal (a b : __BasicTimecode)
    (h : __BasicTimecode.operator_eq a b = .ok true) :
    __BasicTimecode.operator_spaceship a b = .ok __BasicTimecode.strong_ordering.equal := by
  obtain ⟨i, f, h1, h2, h3, h4⟩ := (operator_eq_iff a b).mp h
  simp [__BasicTimecode.operator_spaceship, __BasicTimecode.as_pair_int_float, h1, h2, h3, h4,
    bind, Except.bind, pure, Except.pure]

/-- C11, the code at two unequal Timecodes that round to the same integer: for the
floating value 69.42 and the integer 69, `==` is false and `!=` is true, yet `<=>` reports
`equal`, so neither `<` nor `>` holds while both `<=` and `>=` hold. -/
theorem C11_ordering_equal_without_equality :
    __BasicTimecode.operator_eq (__BasicTimecode.ctor_float (6942 / 100) default_value)
        (__BasicTimecode.ctor_int 69 default_value) = .ok false
      ∧ __BasicTimecode.operator_ne (__BasicTimecode.ctor_float (6942 / 100) default_value)
        (__BasicTimecode.ctor_int 69 default_value) = .ok true
      ∧ __BasicTimecode.operator_spaceship
          (__BasicTimecode.ctor_float (6942 / 100) default_value)
          (__BasicTimecode.ctor_int 69 default_value)
        = .ok __BasicTimecode.strong_ordering.equal
      ∧ __BasicTimecode.operator_lt (__BasicTimecode.ctor_float (6942 / 100) default_value)
        (__BasicTimecode.ctor_int 69 default_value) = .ok false
      ∧ __BasicTimecode.operator_gt (__BasicTimecode.ctor_float (6942 / 100) default_value)
        (__BasicTimecode.ctor_int 69 default_value) = .ok false
      ∧ __BasicTimecode.operator_le (__BasicTimecode.ctor_float (6942 / 100) default_value)
        (__BasicTimecode.ctor_int 69 default_value) = .ok true
      ∧ __BasicTimecode.operator_ge (__BasicTimecode.ctor_float (6942 / 100) default_value)
        (__BasicTimecode.ctor_int 69 default_value) = .ok true := by
  decide!

/-! ## Arithmetic with a raw number -/

/-- C12, the code at the top of the range: adding 1 to an integral Timecode that holds the
maximum of `int_t` evaluates `tmp._value.i + rhs` first, a signed overflow, before
`std::min` is applied; the same holds for the sum of two Timecodes. -/
theorem C12_addition_overflows_before_min :
    (__BasicTimecode.ctor_int INT64_MAX default_value).as_signed = .ok INT64_MAX
      ∧ __BasicTimecode.signed_result (INT64_MAX + 1) = .error Fault.undefined
      ∧ __BasicTimecode.operator_plus_int (__BasicTimecode.ctor_int INT64_MAX default_value) 1
          = .error Fault.undefined
      ∧ __BasicTimecode.operator_plus (__BasicTimecode.ctor_int INT64_MAX default_value)
          (__BasicTimecode.ctor_int 1 default_value) = .error Fault.undefined := by
  decide!

/-- C13, the code at a negative and at a zero difference: the lower bound passed to
`std::max` is `numeric_limits<float_t>::min()`, the smallest positive value, so 5 - 10 and
5 - 5 both give that positive value instead of -5 and 0. -/
theorem C13_subtraction_clamped_at_positive_min :
    0 < LDBL_MIN
      ∧ (__BasicTimecode.operator_minus_float (__BasicTimecode.ctor_float 5 default_value) 10
          >>= __BasicTimecode.as_float) = .ok LDBL_MIN
      ∧ (__BasicTimecode.operator_minus_float (__BasicTimecode.ctor_float 5 default_value) 5
          >>= __BasicTimecode.as_float) = .ok LDBL_MIN
      ∧ LDBL_MIN ≠ 5 - 10 ∧ LDBL_MIN ≠ 5 - 5 := by
  decide!

/-- C14: for every integral-mode Timecode with value `n` and format `p` and every integer
`k` with `n + k` (resp. `n - k`) in the 64-bit signed range, `tc + k` (resp. `tc - k`) is an
integral-mode Timecode with `as_signed() == n + k` (resp. `n - k`) and format `p`.  The
operand is taken by const reference and the operator works on a copy, so it is unchanged. -/
theorem C14_in_range_integer_arithmetic (t : __BasicTimecode) (n k : ℤ) (p : format)
    (_hmode : t._mode = mode.integral) (hval : t._value = value_t.i n) (hfps : t._fps = p) :
    (INT64_MIN ≤ n + k ∧ n + k ≤ INT64_MAX →
      ∃ r : __BasicTimecode, __BasicTimecode.operator_plus_int t k = .ok r
        ∧ r._mode = mode.integral ∧ r.as_signed = .ok (n + k) ∧ r.fps = p)
    ∧ (INT64_MIN ≤ n - k ∧ n - k ≤ INT64_MAX →
      ∃ r : __BasicTimecode, __BasicTimecode.operator_minus_int t k = .ok r
        ∧ r._mode = mode.integral ∧ r.as_signed = .ok (n - k) ∧ r.fps = p) := by
  constructor
  · intro hr
    refine ⟨(__BasicTimecode.copy_ctor t).set_value_int (n + k), ?_, rfl, rfl, hfps⟩
    simp [__BasicTimecode.operator_plus_int, __BasicTimecode.copy_ctor,
      __BasicTimecode.read_i, __BasicTimecode.signed_result, hval, hr, min_eq_right hr.2,
      bind, Except.bind, pure, Except.pure]
  · intro hr
    refine ⟨(__BasicTimecode.copy_ctor t).set_value_int (n - k), ?_, rfl, rfl, hfps⟩
    simp [__BasicTimecode.operator_minus_int, __BasicTimecode.copy_ctor,
      __BasicTimecode.read_i, __BasicTimecode.signed_result, hval, hr, max_eq_right hr.1,
      bind, Except.bind, pure, Except.pure]

/-- C14 at the integral Timecode 998 and the operand 2. -/
theorem C14_in_range_integer_arithmetic_witness :
    (__BasicTimecode.ctor_int 998 format.fps_30)._mode = mode.integral
      ∧ (__BasicTimecode.ctor_int 998 format.fps_30)._value = value_t.i 998
      ∧ (__BasicTimecode.ctor_int 998 format.fps_30)._fps = format.fps_30
      ∧ (INT64_MIN ≤ (998 : ℤ) + 2 ∧ (998 : ℤ) + 2 ≤ INT64_MAX)
      ∧ (∃ r : __BasicTimecode,
          __BasicTimecode.operator_plus_int (__BasicTimecode.ctor_int 998 format.fps_30) 2
            = .ok r
          ∧ r._mode = mode.integral ∧ r.as_signed = .ok (998 + 2) ∧ r.fps = format.fps_30)
      ∧ (INT64_MIN ≤ (998 : ℤ) - 2 ∧ (998 : ℤ) - 2 ≤ INT64_MAX)
      ∧ (∃ r : __BasicTimecode,
          __BasicTimecode.operator_minus_int (__BasicTimecode.ctor_int 998 format.fps_30) 2
            = .ok r
          ∧ r._mode = mode.integral ∧ r.as_signed = .ok (998 - 2) ∧ r.fps = format.fps_30) :=
  ⟨rfl, rfl, rfl, by decide,
    (C14_in_range_integer_arithmetic (__BasicTimecode.ctor_int 998 format.fps_30) 998 2
      format.fps_30 rfl rfl rfl).1 (by decide),
    by decide,
    (C14_in_range_integer_arithmetic (__BasicTimecode.ctor_int 998 format.fps_30) 998 2
      format.fps_30 rfl rfl rfl).2 (by decide)⟩

/-- C15, the code at operands whose type differs from the mode: the operators select the
union member by the type of the number (`if constexpr`), so a floating-mode Timecode plus
or minus an integer reads the member `i`, and an integral-mode Timecode plus or minus a
floating number reads the member `f`, each time the member that was not written last. -/
theorem C15_member_chosen_by_operand_type :
    (__BasicTimecode.ctor_float (3 / 2) default_value)._mode = mode.floating
      ∧ (__BasicTimecode.ctor_float (3 / 2) default_value)._value = value_t.f (3 / 2)
      ∧ __BasicTimecode.operator_plus_int (__BasicTimecode.ctor_float (3 / 2) default_value) 1
          = .error Fault.undefined
      ∧ __BasicTimecode.operator_minus_int (__BasicTimecode.ctor_float (3 / 2) default_value) 1
          = .error Fault.undefined
      ∧ (__BasicTimecode.ctor_int 5 default_value)._mode = mode.integral
      ∧ (__BasicTimecode.ctor_int 5 default_value)._value = value_t.i 5
      ∧ __BasicTimecode.operator_plus_float (__BasicTimecode.ctor_int 5 default_value) (1 / 2)
          = .error Fault.undefined
      ∧ __BasicTimecode.operator_minus_float (__BasicTimecode.ctor_int 5 default_value) (1 / 2)
          = .error Fault.undefined := by
  decide!

/-! ## Compound assignment -/

/-- C16, the code at a floating Timecode: `t + x` is the floating Timecode 3/2, but
`t += x` passes it to `set_value(const __BasicTimecode&)`, which after its floating branch
goes on to read `value._value.i`, the member not written last, and to set the integral
mode; the same holds for `-=`. -/
theorem C16_compound_assignment_of_floating :
    (__BasicTimecode.operator_plus_float (__BasicTimecode.ctor_float 1 default_value) (1 / 2)
        >>= __BasicTimecode.as_float) = .ok (3 / 2)
      ∧ __BasicTimecode.set_value_timecode (__BasicTimecode.ctor_float 1 default_value)
          (__BasicTimecode.ctor_float (3 / 2) default_value) = .error Fault.undefined
      ∧ __BasicTimecode.operator_plus_assign_float (__BasicTimecode.ctor_float 1 default_value)
          (1 / 2) = .error Fault.undefined
      ∧ (__BasicTimecode.operator_minus_float (__BasicTimecode.ctor_float 2 default_value)
          (1 / 2) >>= __BasicTimecode.as_float) = .ok (3 / 2)
      ∧ __BasicTimecode.operator_minus_assign_float
          (__BasicTimecode.ctor_float 2 default_value) (1 / 2) = .error Fault.undefined := by
  decide!

/-! ## Construction and assignment from a number -/

/-- The function std_round gives a nearest integer, and at a tie the one away from zero. -/
theorem std_round_nearest (x : ℚ) :
    |(std_round x : ℚ) - x| ≤ 1 / 2
      ∧ (|(std_round x : ℚ) - x| = 1 / 2 → |x| < |(std_round x : ℚ)|) := by
  unfold std_round
  by_cases hx : 0 ≤ x
  · rw [if_pos hx]
    have h1 : (⌊x + 1 / 2⌋ : ℚ) ≤ x + 1 / 2 := Int.floor_le _
    have h2 : x + 1 / 2 < (⌊x + 1 / 2⌋ : ℚ) + 1 := Int.lt_floor_add_one _
    constructor
    · rw [abs_le]; constructor <;> linarith
    · intro htie
      have h3 : (⌊x + 1 / 2⌋ : ℚ) - x = 1 / 2 := by
        rcases abs_eq (by norm_num : (0 : ℚ) ≤ 1 / 2) |>.mp htie with h | h
        · exact h
        · linarith
      rw [abs_of_nonneg hx, abs_of_nonneg (by linarith)]
      linarith
  · rw [if_neg hx]
    have hx2 : x < 0 := not_le.mp hx
    have h1 : (⌊-x + 1 / 2⌋ : ℚ) ≤ -x + 1 / 2 := Int.floor_le _
    have h2 : -x + 1 / 2 < (⌊-x + 1 / 2⌋ : ℚ) + 1 := Int.lt_floor_add_one _
    push_cast
    constructor
    · rw [abs_le]; constructor <;> linarith
    · intro htie
      have h3 : -(⌊-x + 1 / 2⌋ : ℚ) - x = -(1 / 2) := by
        rcases abs_eq (by norm_num : (0 : ℚ) ≤ 1 / 2) |>.mp htie with h | h
        · linarith
        · exact h
      rw [abs_of_neg hx2, abs_of_nonpos (by linarith)]
      linarith

/-- C17, as the code has it: the floating value `2^63` rounds to `2^63`, which is above the
maximum of `int_t`, so `as_signed()` of a Timecode built from it is not that rounded
value. -/
theorem C17_as_signed_out_of_range :
    std_round (2 ^ 63) = 2 ^ 63 ∧ INT64_MAX < 2 ^ 63
      ∧ (__BasicTimecode.ctor_float (2 ^ 63) default_value).as_signed
          = .error Fault.undefined
      ∧ (__BasicTimecode.ctor_float (2 ^ 63) default_value).as_signed
          ≠ .ok (std_round (2 ^ 63)) := by
  decide!

/-- C17, amended: for every floating `x` whose rounded value lies in the 64-bit signed
range, `Timecode(x)` and `t = x` are in floating mode with `as_float() == x` exactly and
`as_signed()` equal to `x` rounded to the nearest integer, ties away from zero; for every
integer `n`, `Timecode(n)` and `t = n` are in integral mode with `as_signed() == n` and
`as_float() == n`; assignment leaves the format unchanged. -/
theorem C17_numeric_construction_and_assignment (x : ℚ) (n : ℤ) (p : format)
    (t : __BasicTimecode) (hx : INT64_MIN ≤ std_round x ∧ std_round x ≤ INT64_MAX) :
    ((__BasicTimecode.ctor_float x p)._mode = mode.floating
      ∧ (__BasicTimecode.ctor_float x p).as_float = .ok x
      ∧ (__BasicTimecode.ctor_float x p).as_signed = .ok (std_round x)
      ∧ (__BasicTimecode.ctor_float x p).fps = p)
    ∧ ((t.assign_float x)._mode = mode.floating
      ∧ (t.assign_float x).as_float = .ok x
      ∧ (t.assign_float x).as_signed = .ok (std_round x)
      ∧ (t.assign_float x).fps = t.fps)
    ∧ (|(std_round x : ℚ) - x| ≤ 1 / 2
      ∧ (|(std_round x : ℚ) - x| = 1 / 2 → |x| < |(std_round x : ℚ)|))
    ∧ ((__BasicTimecode.ctor_int n p)._mode = mode.integral
      ∧ (__BasicTimecode.ctor_int n p).as_signed = .ok n
      ∧ (__BasicTimecode.ctor_int n p).as_float = .ok (n : ℚ)
      ∧ (__BasicTimecode.ctor_int n p).fps = p)
    ∧ ((t.assign_int n)._mode = mode.integral
      ∧ (t.assign_int n).as_signed = .ok n
      ∧ (t.assign_int n).as_float = .ok (n : ℚ)
      ∧ (t.assign_int n).fps = t.fps) := by
  have hs : __BasicTimecode.float_to_int (std_round x) = .ok (std_round x) := by
    unfold __BasicTimecode.float_to_int
    rw [if_pos hx]
  refine ⟨⟨rfl, rfl, hs, rfl⟩, ⟨rfl, rfl, hs, rfl⟩, std_round_nearest x, ⟨rfl, rfl, rfl, rfl⟩,
    ⟨rfl, rfl, rfl, rfl⟩⟩

/-- C17, amended, at the values of the tests: 3.33 gives 3 and 69420.6942 gives 69421. -/
theorem C17_numeric_construction_and_assignment_witness :
    (INT64_MIN ≤ std_round (333 / 100) ∧ std_round (333 / 100) ≤ INT64_MAX)
      ∧ (__BasicTimecode.ctor_float (333 / 100) default_value).as_signed = .ok 3
      ∧ (__BasicTimecode.ctor_float (333 / 100) default_value).as_float = .ok (333 / 100)
      ∧ (INT64_MIN ≤ std_round (694206942 / 10000) ∧ std_round (694206942 / 10000) ≤ INT64_MAX)
      ∧ ((__BasicTimecode.ctor_int 998 default_value).assign_float
          (694206942 / 10000)).as_signed = .ok 69421
      ∧ ((__BasicTimecode.ctor_int 998 default_value).assign_float
          (694206942 / 10000)).fps = default_value
      ∧ (__BasicTimecode.ctor_int 998 default_value).as_float = .ok 998 :=
  ⟨by decide!,
    (C17_numeric_construction_and_assignment (333 / 100) 998 default_value
      __BasicTimecode.default (by decide!)).1.2.2.1.trans (by decide!),
    (C17_numeric_construction_and_assignment (333 / 100) 998 default_value
      __BasicTimecode.default (by decide!)).1.2.1,
    by decide!,
    (C17_numeric_construction_and_assignment (694206942 / 10000) 998 default_value
      (__BasicTimecode.ctor_int 998 default_value) (by decide!)).2.1.2.2.1.trans (by decide!),
    (C17_numeric_construction_and_assignment (694206942 / 10000) 998 default_value
      (__BasicTimecode.ctor_int 998 default_value) (by decide!)).2.1.2.2.2,
    (C17_numeric_construction_and_assignment (333 / 100) 998 default_value
      __BasicTimecode.default (by decide!)).2.2.2.1.2.2.1.trans (by decide!)⟩

/-- C18: the default-constructed Timecode is in floating mode with `as_signed() == 0` and
`as_float() == 0.0`, and its format is the configured default, which is `fps_25`, the
variant whose integer rate is 25, and not `none`. -/
theorem C18_default_construction :
    __BasicTimecode.default._mode = mode.floating
      ∧ __BasicTimecode.default.as_signed = .ok 0
      ∧ __BasicTimecode.default.as_float = .ok 0
      ∧ __BasicTimecode.default.fps = default_value
      ∧ default_value = format.fps_25
      ∧ __fpsformat_value_to_int default_value = VTM_TIMECODE_FPS_DEFAULT
      ∧ VTM_TIMECODE_FPS_DEFAULT = 25
      ∧ default_value ≠ format.none := by
  decide!

/-! ## The cached drop-frame flag -/

/-- C19, the code at the drop-frame format: the numeric constructor assigns `_fps` in its
body after `_dropframe` was initialized from the default format, so a Timecode built with
`fpsdf_29p97`, directly or through `from_hmsf` or `from_string`, reports `dropframe()`
false although `is_drop_frame(fps())` is true; its copy recomputes the flag and reports
true, and the move constructor and the copy assignment leave the flag as it was. -/
theorem C19_dropframe_flag_not_refreshed :
    (__BasicTimecode.ctor_float 0 format.fpsdf_29p97).fps = format.fpsdf_29p97
      ∧ is_drop_frame (__BasicTimecode.ctor_float 0 format.fpsdf_29p97).fps = true
      ∧ (__BasicTimecode.ctor_float 0 format.fpsdf_29p97).dropframe = false
      ∧ (__BasicTimecode.from_hmsf 0 0 0 0 format.fpsdf_29p97).map __BasicTimecode.dropframe
          = .ok false
      ∧ (__BasicTimecode.from_string "00;00;00;00".toList format.fpsdf_29p97).map
          __BasicTimecode.dropframe = .ok false
      ∧ (__BasicTimecode.copy_ctor
          (__BasicTimecode.ctor_float 0 format.fpsdf_29p97)).dropframe = true
      ∧ (__BasicTimecode.move_ctor
          (__BasicTimecode.copy_ctor (__BasicTimecode.ctor_float 0 format.fpsdf_29p97))).1
          = __BasicTimecode.ctor_float 0 format.fpsdf_29p97
      ∧ (__BasicTimecode.copy_assign __BasicTimecode.default
          (__BasicTimecode.copy_ctor (__BasicTimecode.ctor_float 0 format.fpsdf_29p97))).fps
          = format.fpsdf_29p97
      ∧ (__BasicTimecode.copy_assign __BasicTimecode.default
          (__BasicTimecode.copy_ctor
            (__BasicTimecode.ctor_float 0 format.fpsdf_29p97))).dropframe = false := by
  decide!

/-! ## The gate of from_string -/

/-- C20, as the code has it: at the format `none` a valid string yields no Timecode, because
the rate 0 fails the assertion of the tick conversion. -/
theorem C20_from_string_at_none :
    valid_tcstring "00:00:00:00".toList = .ok true
      ∧ __fpsformat_value_to_float format.none = 0
      ∧ tcstring_to_ticks "00:00:00:00".toList (__fpsformat_value_to_float format.none)
          = .error Fault.assertion
      ∧ __BasicTimecode.from_string "00:00:00:00".toList format.none
          = .error Fault.assertion := by
  decide!

/-- C20, amended: `from_string(text, fps)` signals a failure and yields no Timecode when
`valid_tcstring(text)` is false; when it is true and the format is not `none`, it returns a
floating-mode Timecode whose `as_float()` is `tcstring_to_ticks(text, fps)` and whose format
is the given one; at the format `none` it signals a failure as well. -/
theorem C20_from_string_gated (text : string_t) (fps : format) :
    (valid_tcstring text = .ok false →
      __BasicTimecode.from_string text fps = .error Fault.assertion)
    ∧ (valid_tcstring text = .ok true → fps ≠ format.none →
      ∃ (x : ℚ) (tc : __BasicTimecode),
        tcstring_to_ticks text (__fpsformat_value_to_float fps) = .ok x
          ∧ __BasicTimecode.from_string text fps = .ok tc
          ∧ tc._mode = mode.floating ∧ tc.as_float = .ok x ∧ tc.fps = fps)
    ∧ (valid_tcstring text = .ok true → fps = format.none →
      __BasicTimecode.from_string text fps = .error Fault.assertion) := by
  refine ⟨?_, ?_, ?_⟩
  · intro hv
    simp [__BasicTimecode.from_string, hv, VTM_ASSERT, bind, Except.bind]
  · intro hv hfps
    obtain ⟨_, a, b, c, d, hsplit, _⟩ := (valid_tcstring_iff text).mp hv
    rw [← tcstring_delim_eq] at hsplit
    have ht := tcstring_to_ticks_ok text _ a b c d (registry_rate fps hfps).1 hv hsplit
    refine ⟨_, __BasicTimecode.ctor_float _ fps, ht, ?_, rfl, rfl, rfl⟩
    simp only [__BasicTimecode.from_string, hv, ht, VTM_ASSERT, if_true, bind, Except.bind,
      pure, Except.pure]
  · intro hv hfps
    subst hfps
    have ht : tcstring_to_ticks text (__fpsformat_value_to_float format.none)
        = .error Fault.assertion := by
      simp [tcstring_to_ticks, hv, VTM_ASSERT, fps_to_ticks_by_chunk,
        __fpsformat_value_to_float, bind, Except.bind, pure, Except.pure]
    simp only [__BasicTimecode.from_string, hv, ht, VTM_ASSERT, if_true, bind, Except.bind]

/-- C20, amended, at an empty text and at the string `00:00:01:00` with the default
format. -/
theorem C20_from_string_gated_witness :
    valid_tcstring "".toList = .ok false
      ∧ __BasicTimecode.from_string "".toList default_value = .error Fault.assertion
      ∧ valid_tcstring "00:00:01:00".toList = .ok true
      ∧ default_value ≠ format.none
      ∧ (∃ (x : ℚ) (tc : __BasicTimecode),
          tcstring_to_ticks "00:00:01:00".toList (__fpsformat_value_to_float default_value)
              = .ok x
            ∧ __BasicTimecode.from_string "00:00:01:00".toList default_value = .ok tc
            ∧ tc._mode = mode.floating ∧ tc.as_float = .ok x ∧ tc.fps = default_value) :=
  ⟨by decide, (C20_from_string_gated "".toList default_value).1 (by decide), by decide,
    by decide,
    (C20_from_string_gated "00:00:01:00".toList default_value).2.1 (by decide) (by decide)⟩

/-! ## Failure of from_hmsf -/

/-- C22: `is_tcstring_dropframe(t)` is true exactly when `t` contains the character `;` at
some position. -/
theorem C22_dropframe_detection :
    (∀ t : string_t, is_tcstring_dropframe t = true ↔ ∃ i : ℕ, t[i]? = some ';')
      ∧ (∀ t : string_t, is_tcstring_dropframe t = true ↔ ';' ∈ t)
      ∧ is_tcstring_dropframe "00:00:00;00".toList = true
      ∧ is_tcstring_dropframe "00:00:00:00".toList = false
      ∧ is_tcstring_dropframe "".toList = false := by
  refine ⟨?_, is_tcstring_dropframe_iff, by decide, by decide, by decide⟩
  intro t
  rw [is_tcstring_dropframe_iff, List.mem_iff_getElem?]

/-! ## The format registry -/

/-- C23: the registry is bidirectional: every variant is recovered from its name; every
variant other than the two 29.97 ones is recovered from its integer and from its floating
rate; for the two 29.97 variants the lookups of 29 and of 29.97 return one of the two; and
`is_drop_frame` is true exactly for `fpsdf_29p97`. -/
theorem C23_registry_bidirectional :
    (∀ v : format, __FPSFormat.from_string (__FPSFormat.to_string v) = v)
      ∧ (∀ v : format, v ≠ format.fps_29p97 → v ≠ format.fpsdf_29p97 →
          __FPSFormat.from_int (__FPSFormat.to_int v) = v
            ∧ __FPSFormat.from_float (__FPSFormat.to_float v) = v)
      ∧ (∀ v : format, v = format.fps_29p97 ∨ v = format.fpsdf_29p97 →
          __FPSFormat.to_int v = 29 ∧ __FPSFormat.to_float v = 2997 / 100
            ∧ (__FPSFormat.from_int (__FPSFormat.to_int v) = format.fps_29p97
              ∨ __FPSFormat.from_int (__FPSFormat.to_int v) = format.fpsdf_29p97)
            ∧ (__FPSFormat.from_float (__FPSFormat.to_float v) = format.fps_29p97
              ∨ __FPSFormat.from_float (__FPSFormat.to_float v) = format.fpsdf_29p97))
      ∧ (∀ v : format, is_drop_frame v = true ↔ v = format.fpsdf_29p97) := by
  refine ⟨?_, ?_, ?_, ?_⟩
  · intro v; cases v <;> decide
  · intro v h1 h2
    cases v
    · exact ⟨by decide, by decide!⟩
    · exact ⟨by decide, by decide!⟩
    · exact ⟨by decide, by decide!⟩
    · exact absurd rfl h1
    · exact absurd rfl h2
    · exact ⟨by decide, by decide!⟩
    · exact ⟨by decide, by decide!⟩
  · intro v hv
    rcases hv with rfl | rfl
    · exact ⟨by decide, by decide!, Or.inl (by decide), Or.inl (by decide!)⟩
    · exact ⟨by decide, by decide!, Or.inl (by decide), Or.inl (by decide!)⟩
  · intro v; cases v <;> decide

/-- C23 at the variants `fps_25` and `fpsdf_29p97`. -/
theorem C23_registry_bidirectional_witness :
    __FPSFormat.from_string (__FPSFormat.to_string format.fpsdf_29p97) = format.fpsdf_29p97
      ∧ format.fps_25 ≠ format.fps_29p97 ∧ format.fps_25 ≠ format.fpsdf_29p97
      ∧ (__FPSFormat.from_int (__FPSFormat.to_int format.fps_25) = format.fps_25
        ∧ __FPSFormat.from_float (__FPSFormat.to_float format.fps_25) = format.fps_25)
      ∧ (is_drop_frame format.fpsdf_29p97 = true ↔ format.fpsdf_29p97 = format.fpsdf_29p97) :=
  ⟨C23_registry_bidirectional.1 format.fpsdf_29p97, by decide, by decide,
    C23_registry_bidirectional.2.1 format.fps_25 (by decide) (by decide),
    C23_registry_bidirectional.2.2.2 format.fpsdf_29p97⟩

/-- C24: a lookup of an integer, a floating rate or a name that has no row in the registry
returns `none`, whose integer rate is 0, floating rate 0.0 and name `NONE`. -/
theorem C24_registry_fallback :
    (∀ i : ℤ, i ≠ 0 → i ≠ 24 → i ≠ 25 → i ≠ 29 → i ≠ 30 → i ≠ 60 →
        __FPSFormat.from_int i = format.none)
      ∧ (∀ x : ℚ, x ≠ 0 → x ≠ 24 → x ≠ 25 → x ≠ 2997 / 100 → x ≠ 30 → x ≠ 60 →
        __FPSFormat.from_float x = format.none)
      ∧ (∀ s : string_t, (∀ v : format, s ≠ __FPSFormat.to_string v) →
        __FPSFormat.from_string s = format.none)
      ∧ __FPSFormat.to_int format.none = 0
      ∧ __FPSFormat.to_float format.none = 0
      ∧ __FPSFormat.to_string format.none = "NONE".toList := by
  refine ⟨?_, ?_, ?_, rfl, rfl, rfl⟩
  · intro i _ h24 h25 h29 h30 h60
    simp [__FPSFormat.from_int, __fpsformat_int_to_value, h24, h25, h29, h30, h60]
  · intro x _ h24 h25 h29 h30 h60
    simp [__FPSFormat.from_float, __fpsformat_float_to_value, h24, h25, h29, h30, h60]
  · intro s hs
    have h1 := hs format.fps_24
    have h2 := hs format.fps_25
    have h3 := hs format.fps_30
    have h4 := hs format.fps_29p97
    have h5 := hs format.fpsdf_29p97
    have h6 := hs format.fps_60
    simp only [__FPSFormat.to_string, __fpsformat_value_to_string] at h1 h2 h3 h4 h5 h6
    simp only [__FPSFormat.from_string, __fpsformat_string_to_value, if_neg h1, if_neg h2,
      if_neg h3, if_neg h4, if_neg h5, if_neg h6]

/-- C24 at the integer 23, the rate 23.976 and the name `23.976 fps`. -/
theorem C24_registry_fallback_witness :
    __FPSFormat.from_int 23 = format.none
      ∧ __FPSFormat.from_float (23976 / 1000) = format.none
      ∧ (∀ v : format, "23.976 fps".toList ≠ __FPSFormat.to_string v)
      ∧ __FPSFormat.from_string "23.976 fps".toList = format.none :=
  ⟨C24_registry_fallback.1 23 (by decide) (by decide) (by decide) (by decide) (by decide)
      (by decide),
    C24_registry_fallback.2.1 (23976 / 1000) (by norm_num) (by norm_num) (by norm_num)
      (by norm_num) (by norm_num) (by norm_num),
    fun v => by cases v <;> decide,
    C24_registry_fallback.2.2.1 "23.976 fps".toList (fun v => by cases v <;> decide)⟩

/-! ## The guard of the chunk formatter -/

/-- C26, the code at two floating Timecodes: after the floating branch has stored the sum,
`operator+` goes on to add `tmp._value.i` and `rhs._value.i`, the members not written last,
and to store the result in integral mode; `operator-` does the same.  The Timecode plus the
raw number gives the floating 7/4 that the claim expects. -/
theorem C26_sum_of_floating_timecodes :
    (__BasicTimecode.ctor_float (3 / 2) default_value)._mode = mode.floating
      ∧ (__BasicTimecode.ctor_float (1 / 4) default_value)._mode = mode.floating
      ∧ (__BasicTimecode.operator_plus_float (__BasicTimecode.ctor_float (3 / 2) default_value)
          (1 / 4) >>= __BasicTimecode.as_float) = .ok (7 / 4)
      ∧ __BasicTimecode.operator_plus (__BasicTimecode.ctor_float (3 / 2) default_value)
          (__BasicTimecode.ctor_float (1 / 4) default_value) = .error Fault.undefined
      ∧ __BasicTimecode.operator_minus (__BasicTimecode.ctor_float (3 / 2) default_value)
          (__BasicTimecode.ctor_float (1 / 4) default_value) = .error Fault.undefined := by
  decide!

/-! ## Formatting in either mode -/

theorem ticks_to_string_ok (n fps : ℚ) (hfps : 0 < fps) :
    ∃ s : string_t, ticks_to_string n fps = .ok s := by
  simp only [ticks_to_string, ticks_to_chunks, fps_to_ticks_by_chunk_ok fps hfps, VTM_ASSERT,
    gt_iff_lt, hfps, decide_True, if_true, bind, Except.bind, pure, Except.pure]
  exact ⟨_, rfl⟩

/-- C27: an integral-mode Timecode built from the integer `n` and a floating-mode Timecode
holding the same number produce the same `as_string()`, namely
`ticks_to_string(n, float rate of fps)`; for `n ≥ 0` and a format other than `none` that is
a string. -/
theorem C27_formatting_mode_independent (n : ℤ) (p : format) :
    (__BasicTimecode.ctor_int n p).as_string = (__BasicTimecode.ctor_float (n : ℚ) p).as_string
      ∧ (__BasicTimecode.ctor_int n p).as_string
          = ticks_to_string (n : ℚ) (__fpsformat_value_to_float p)
      ∧ (0 ≤ n → p ≠ format.none →
          ∃ s : string_t, (__BasicTimecode.ctor_int n p).as_string = .ok s
            ∧ (__BasicTimecode.ctor_float (n : ℚ) p).as_string = .ok s) := by
  have e1 : (__BasicTimecode.ctor_int n p).as_string
      = ticks_to_string (n : ℚ) (__fpsformat_value_to_float p) := by
    simp [__BasicTimecode.as_string, __BasicTimecode.ctor_int, __BasicTimecode.set_value_int,
      __BasicTimecode.default, __BasicTimecode.as_float, bind, Except.bind]
  refine ⟨by rw [e1, as_string_ctor_float], e1, ?_⟩
  intro _ hp
  obtain ⟨s, hs⟩ := ticks_to_string_ok (n : ℚ) _ (registry_rate p hp).1
  exact ⟨s, by rw [e1, hs], by rw [as_string_ctor_float, hs]⟩

/-- C27 at the number 36 and 25 frames per second: both modes print `01:00:00:00`. -/
theorem C27_formatting_mode_independent_witness :
    (0 : ℤ) ≤ 36 ∧ format.fps_25 ≠ format.none
      ∧ (__BasicTimecode.ctor_int 36 format.fps_25).as_string
          = (__BasicTimecode.ctor_float ((36 : ℤ) : ℚ) format.fps_25).as_string
      ∧ (__BasicTimecode.ctor_int 36 format.fps_25).as_string = .ok "01:00:00:00".toList :=
  ⟨by decide, by decide, (C27_formatting_mode_independent 36 format.fps_25).1,
    (C27_formatting_mode_independent 36 format.fps_25).2.1.trans (by decide!)⟩

/-! ## Reset and move -/

/-- C28: after `reset()` a Timecode of either mode and any format is in floating mode with
`as_float() == 0.0` and `as_signed() == 0`, and its format is the one it had before. -/
theorem C28_reset (t : __BasicTimecode) :
    t.reset._mode = mode.floating
      ∧ t.reset.as_float = .ok 0
      ∧ t.reset.as_signed = .ok 0
      ∧ t.reset.fps = t.fps
      ∧ t.reset._value = value_t.f 0 := by
  refine ⟨rfl, rfl, ?_, rfl, rfl⟩
  show __BasicTimecode.float_to_int (std_round 0) = .ok 0
  decide!

/-- C29, as the code has it: the source of a move is left with the format `fps_24`, the
enumerator of value zero, and so differs from a default-constructed Timecode, whose format
is `fps_25`. -/
theorem C29_moved_from_is_not_default :
    (__BasicTimecode.move_ctor __BasicTimecode.default).2.fps = format.fps_24
      ∧ (__BasicTimecode.move_assign __BasicTimecode.default __BasicTimecode.default).2.fps
          = format.fps_24
      ∧ __BasicTimecode.default.fps = format.fps_25
      ∧ default_value = format.fps_25
      ∧ (__BasicTimecode.move_ctor __BasicTimecode.default).2 ≠ __BasicTimecode.default := by
  decide!

/-- C29, amended: after move-constructing or move-assigning `d` from `s`, `d` has the mode,
value and format that `s` had, and `s` is left in floating mode with value 0.0 and the
format `fps_24`, the enumerator of value zero. -/
theorem C29_move (s t : __BasicTimecode) :
    ((__BasicTimecode.move_ctor s).1._mode = s._mode
      ∧ (__BasicTimecode.move_ctor s).1._value = s._value
      ∧ (__BasicTimecode.move_ctor s).1.fps = s.fps)
    ∧ ((__BasicTimecode.move_assign t s).1._mode = s._mode
      ∧ (__BasicTimecode.move_assign t s).1._value = s._value
      ∧ (__BasicTimecode.move_assign t s).1.fps = s.fps)
    ∧ ((__BasicTimecode.move_ctor s).2._mode = mode.floating
      ∧ (__BasicTimecode.move_ctor s).2._value = value_t.f 0
      ∧ (__BasicTimecode.move_ctor s).2.as_float = .ok 0
      ∧ (__BasicTimecode.move_ctor s).2.fps = format.fps_24)
    ∧ ((__BasicTimecode.move_assign t s).2._mode = mode.floating
      ∧ (__BasicTimecode.move_assign t s).2._value = value_t.f 0
      ∧ (__BasicTimecode.move_assign t s).2.as_float = .ok 0
      ∧ (__BasicTimecode.move_assign t s).2.fps = format.fps_24) :=
  ⟨⟨rfl, rfl, rfl⟩, ⟨rfl, rfl, rfl⟩, ⟨rfl, rfl, rfl, rfl⟩, ⟨rfl, rfl, rfl, rfl⟩⟩

/-! ## The strict order of timecodes -/

theorem as_pair_int_float_fault (t : __BasicTimecode) (e : Fault)
    (h : t.as_pair_int_float = .error e) : e = Fault.undefined := by
  unfold __BasicTimecode.as_pair_int_float at h
  rcases h1 : t.as_signed with e1 | i
  · rw [h1] at h
    simp only [bind, Except.bind] at h
    cases h
    exact as_signed_fault t _ h1
  · rcases h2 : t.as_float with e2 | f
    · rw [h1, h2] at h
      simp only [bind, Except.bind] at h
      cases h
      exact as_float_fault t _ h2
    · rw [h1, h2] at h
      simp [bind, Except.bind, pure, Except.pure] at h

/-- The comparison `a < b` holds exactly when both coercions of `a` are defined and
strictly below those of `b`. -/
theorem operator_lt_iff (a b : __BasicTimecode) :
    __BasicTimecode.operator_lt a b = .ok true
      ↔ ∃ (ia ib : ℤ) (fa fb : ℚ), a.as_pair_int_float = .ok (ia, fa)
          ∧ b.as_pair_int_float = .ok (ib, fb) ∧ ia < ib ∧ fa < fb := by
  unfold __BasicTimecode.operator_lt __BasicTimecode.operator_spaceship
  rcases h1 : a.as_pair_int_float with e1 | ⟨ia, fa⟩ <;>
    rcases h2 : b.as_pair_int_float with e2 | ⟨ib, fb⟩ <;>
    simp only [bind, Except.bind, pure, Except.pure, reduceCtorEq, false_and, and_false,
      exists_false, exists_const, Except.ok.injEq, Prod.mk.injEq]
  by_cases hc : ia < ib ∧ fa < fb
  · rw [if_pos hc]
    simp only [decide_True, true_iff]
    exact ⟨ia, ib, fa, fb, ⟨rfl, rfl⟩, ⟨rfl, rfl⟩, hc.1, hc.2⟩
  · rw [if_neg hc]
    have hno : ¬ ∃ (ia2 ib2 : ℤ) (fa2 fb2 : ℚ), (ia = ia2 ∧ fa = fa2)
        ∧ (ib = ib2 ∧ fb = fb2) ∧ ia2 < ib2 ∧ fa2 < fb2 := by
      rintro ⟨ia2, ib2, fa2, fb2, ⟨rfl, rfl⟩, ⟨rfl, rfl⟩, h⟩
      exact hc h
    by_cases hg : ia > ib ∧ fa > fb
    · rw [if_pos hg]
      simp only [reduceCtorEq, decide_False]
      exact ⟨fun h => by simp at h, fun h => absurd h hno⟩
    · rw [if_neg hg]
      simp only [reduceCtorEq, decide_False]
      exact ⟨fun h => by simp at h, fun h => absurd h hno⟩

/-- The comparison `a < b` is the comparison `b > a`, as results. -/
theorem operator_lt_eq_gt (a b : __BasicTimecode) :
    __BasicTimecode.operator_lt a b = __BasicTimecode.operator_gt b a := by
  unfold __BasicTimecode.operator_lt __BasicTimecode.operator_gt
    __BasicTimecode.operator_spaceship
  rcases h1 : a.as_pair_int_float with e1 | ⟨ia, fa⟩ <;>
    rcases h2 : b.as_pair_int_float with e2 | ⟨ib, fb⟩ <;>
    simp only [bind, Except.bind, pure, Except.pure]
  · rw [as_pair_int_float_fault a _ h1, as_pair_int_float_fault b _ h2]
  · by_cases hc : ia < ib ∧ fa < fb
    · have hn : ¬ (ib < ia ∧ fb < fa) := fun h => absurd (lt_trans hc.1 h.1) (lt_irrefl _)
      have hg : ib > ia ∧ fb > fa := hc
      rw [if_pos hc, if_neg hn, if_pos hg]
      rfl
    · by_cases hg : ia > ib ∧ fa > fb
      · have hl : ib < ia ∧ fb < fa := hg
        rw [if_neg hc, if_pos hg, if_pos hl]
        rfl
      · have hl : ¬ (ib < ia ∧ fb < fa) := hg
        have hg2 : ¬ (ib > ia ∧ fb > fa) := hc
        rw [if_neg hc, if_neg hg, if_neg hl, if_neg hg2]
        rfl

theorem operator_lt_imp_ge_false (a b : __BasicTimecode)
    (h : __BasicTimecode.operator_lt a b = .ok true) :
    __BasicTimecode.operator_ge a b = .ok false := by
  unfold __BasicTimecode.operator_lt at h
  unfold __BasicTimecode.operator_ge
  rcases hs : __BasicTimecode.operator_spaceship a b with e | o
  · rw [hs] at h
    simp [bind, Except.bind] at h
  · rw [hs] at h
    simp only [bind, Except.bind, pure, Except.pure, Except.ok.injEq, decide_eq_true_eq] at h
    subst h
    rfl

/-- C30: `operator<` is a strict partial order that mirrors `operator>`: `a < a` never
holds; `a < b` is `b > a`; `a < b` excludes `b < a` and `a >= b`; and `a < b` together with
`b < c` gives `a < c`. -/
theorem C30_lt_strict_partial_order :
    (∀ a : __BasicTimecode, __BasicTimecode.operator_lt a a ≠ .ok true)
      ∧ (∀ a b : __BasicTimecode,
          __BasicTimecode.operator_lt a b = __BasicTimecode.operator_gt b a)
      ∧ (∀ a b : __BasicTimecode, __BasicTimecode.operator_lt a b = .ok true →
          __BasicTimecode.operator_lt b a = .ok false
            ∧ __BasicTimecode.operator_ge a b = .ok false)
      ∧ (∀ a b c : __BasicTimecode, __BasicTimecode.operator_lt a b = .ok true →
          __BasicTimecode.operator_lt b c = .ok true →
          __BasicTimecode.operator_lt a c = .ok true) := by
  refine ⟨?_, operator_lt_eq_gt, ?_, ?_⟩
  · intro a h
    obtain ⟨ia, ib, fa, fb, h1, h2, hi, _⟩ := (operator_lt_iff a a).mp h
    rw [h1] at h2
    simp only [Except.ok.injEq, Prod.mk.injEq] at h2
    rw [h2.1] at hi
    exact lt_irrefl _ hi
  · intro a b h
    refine ⟨?_, operator_lt_imp_ge_false a b h⟩
    obtain ⟨ia, ib, fa, fb, h1, h2, hi, hf⟩ := (operator_lt_iff a b).mp h
    have hn : ¬ (ib < ia ∧ fb < fa) := fun hc => absurd (lt_trans hi hc.1) (lt_irrefl _)
    have hg : ib > ia ∧ fb > fa := ⟨hi, hf⟩
    simp only [__BasicTimecode.operator_lt, __BasicTimecode.operator_spaceship, h1, h2, bind,
      Except.bind, pure, Except.pure, if_neg hn, if_pos hg]
    rfl
  · intro a b c hab hbc
    obtain ⟨ia, ib, fa, fb, h1, h2, hi, hf⟩ := (operator_lt_iff a b).mp hab
    obtain ⟨ib2, ic, fb2, fc, h3, h4, hi2, hf2⟩ := (operator_lt_iff b c).mp hbc
    rw [h2] at h3
    simp only [Except.ok.injEq, Prod.mk.injEq] at h3
    obtain ⟨rfl, rfl⟩ := h3
    exact (operator_lt_iff a c).mpr
      ⟨ia, ic, fa, fc, h1, h4, lt_trans hi hi2, lt_trans hf hf2⟩

/-- C30 at the Timecodes of the test, 69.42 and 690420, and a third one, 700000. -/
theorem C30_lt_strict_partial_order_witness :
    __BasicTimecode.operator_lt (__BasicTimecode.ctor_float (6942 / 100) default_value)
        (__BasicTimecode.ctor_int 690420 default_value) = .ok true
      ∧ __BasicTimecode.operator_lt (__BasicTimecode.ctor_int 690420 default_value)
        (__BasicTimecode.ctor_int 700000 default_value) = .ok true
      ∧ (__BasicTimecode.operator_lt (__BasicTimecode.ctor_int 690420 default_value)
            (__BasicTimecode.ctor_float (6942 / 100) default_value) = .ok false
          ∧ __BasicTimecode.operator_ge (__BasicTimecode.ctor_float (6942 / 100) default_value)
            (__BasicTimecode.ctor_int 690420 default_value) = .ok false)
      ∧ __BasicTimecode.operator_lt (__BasicTimecode.ctor_float (6942 / 100) default_value)
        (__BasicTimecode.ctor_int 700000 default_value) = .ok true :=
  ⟨by decide!, by decide!,
    C30_lt_strict_partial_order.2.2.1 (__BasicTimecode.ctor_float (6942 / 100) default_value)
      (__BasicTimecode.ctor_int 690420 default_value) (by decide!),
    C30_lt_strict_partial_order.2.2.2 (__BasicTimecode.ctor_float (6942 / 100) default_value)
      (__BasicTimecode.ctor_int 690420 default_value)
      (__BasicTimecode.ctor_int 700000 default_value) (by decide!) (by decide!)⟩

/-! ## Tick values and the order of time -/

/-- The total frame count of in-range components grows strictly with the lexicographic
order of the components. -/
theorem total_frames_lt (fps : ℚ) (h m s f h2 m2 s2 f2 : ℤ) (hfps : 0 < fps)
    (hr1 : 0 ≤ h ∧ 0 ≤ m ∧ m < 60 ∧ 0 ≤ s ∧ s < 60 ∧ 0 ≤ f ∧ (f : ℚ) < fps)
    (hr2 : 0 ≤ h2 ∧ 0 ≤ m2 ∧ m2 < 60 ∧ 0 ≤ s2 ∧ s2 < 60 ∧ 0 ≤ f2 ∧ (f2 : ℚ) < fps)
    (hlex : h < h2 ∨ (h = h2 ∧ (m < m2 ∨ (m = m2 ∧ (s < s2 ∨ (s = s2 ∧ f < f2)))))) :
    ((((h : ℚ) * 60 * 60) + ((m : ℚ) * 60) + (s : ℚ)) * fps) + (f : ℚ)
      < ((((h2 : ℚ) * 60 * 60) + ((m2 : ℚ) * 60) + (s2 : ℚ)) * fps) + (f2 : ℚ) := by
  obtain ⟨h0, m0, m1, s0, s1, f0, f1⟩ := hr1
  obtain ⟨h20, m20, m21, s20, s21, f20, f21⟩ := hr2
  have hcases : (h * 3600 + m * 60 + s + 1 ≤ h2 * 3600 + m2 * 60 + s2)
      ∨ (h * 3600 + m * 60 + s = h2 * 3600 + m2 * 60 + s2 ∧ f < f2) := by
    omega
  have hf0 : (0 : ℚ) ≤ (f2 : ℚ) := by exact_mod_cast f20
  rcases hcases with hT | ⟨hT, hf⟩
  · have hTq : ((h : ℚ) * 3600 + (m : ℚ) * 60 + (s : ℚ)) + 1
        ≤ (h2 : ℚ) * 3600 + (m2 : ℚ) * 60 + (s2 : ℚ) := by exact_mod_cast hT
    nlinarith
  · have hTq : (h : ℚ) * 3600 + (m : ℚ) * 60 + (s : ℚ)
        = (h2 : ℚ) * 3600 + (m2 : ℚ) * 60 + (s2 : ℚ) := by exact_mod_cast hT
    have hfq : (f : ℚ) < (f2 : ℚ) := by exact_mod_cast hf
    have e1 : (h : ℚ) * 60 * 60 + (m : ℚ) * 60 + (s : ℚ)
        = (h2 : ℚ) * 60 * 60 + (m2 : ℚ) * 60 + (s2 : ℚ) := by linarith
    rw [e1]
    linarith

theorem ctor_float_injective (x y : ℚ) (p : format)
    (h : __BasicTimecode.ctor_float x p = __BasicTimecode.ctor_float y p) : x = y := by
  have hv : (__BasicTimecode.ctor_float x p)._value = (__BasicTimecode.ctor_float y p)._value := by
    rw [h]
  have hv2 : value_t.f x = value_t.f y := hv
  exact value_t.f.inj hv2

/-- With every operation taken as exact: for every rate `fps > 0` the tick value of
`chunks_to_total_ticks` is strictly increasing with respect to the lexicographic order on
in-range components (`h ≥ 0`, `0 ≤ m < 60`, `0 ≤ s < 60`, `0 ≤ f < fps`, all integers);
hence distinct in-range components give distinct tick values, and `from_hmsf` is injective
on them. -/
theorem ticks_strictly_increasing_exact (fps : ℚ) (h m s f h2 m2 s2 f2 : ℤ) (hfps : 0 < fps)
    (hr1 : 0 ≤ h ∧ 0 ≤ m ∧ m < 60 ∧ 0 ≤ s ∧ s < 60 ∧ 0 ≤ f ∧ (f : ℚ) < fps)
    (hr2 : 0 ≤ h2 ∧ 0 ≤ m2 ∧ m2 < 60 ∧ 0 ≤ s2 ∧ s2 < 60 ∧ 0 ≤ f2 ∧ (f2 : ℚ) < fps) :
    ((h < h2 ∨ (h = h2 ∧ (m < m2 ∨ (m = m2 ∧ (s < s2 ∨ (s = s2 ∧ f < f2)))))) →
      ∃ x y : ℚ, chunks_to_total_ticks ((h : ℚ), (m : ℚ), (s : ℚ), (f : ℚ)) fps = .ok x
        ∧ chunks_to_total_ticks ((h2 : ℚ), (m2 : ℚ), (s2 : ℚ), (f2 : ℚ)) fps = .ok y
        ∧ x < y)
    ∧ (chunks_to_total_ticks ((h : ℚ), (m : ℚ), (s : ℚ), (f : ℚ)) fps
          = chunks_to_total_ticks ((h2 : ℚ), (m2 : ℚ), (s2 : ℚ), (f2 : ℚ)) fps →
        h = h2 ∧ m = m2 ∧ s = s2 ∧ f = f2)
    ∧ (∀ p : format, __fpsformat_value_to_float p = fps →
        __BasicTimecode.from_hmsf h m s f p = __BasicTimecode.from_hmsf h2 m2 s2 f2 p →
        h = h2 ∧ m = m2 ∧ s = s2 ∧ f = f2) := by
  have hc : 0 < 1 / fps / 100 := by positivity
  have hmono : ∀ (a b c d a2 b2 c2 d2 : ℤ),
      (0 ≤ a ∧ 0 ≤ b ∧ b < 60 ∧ 0 ≤ c ∧ c < 60 ∧ 0 ≤ d ∧ (d : ℚ) < fps) →
      (0 ≤ a2 ∧ 0 ≤ b2 ∧ b2 < 60 ∧ 0 ≤ c2 ∧ c2 < 60 ∧ 0 ≤ d2 ∧ (d2 : ℚ) < fps) →
      (a < a2 ∨ (a = a2 ∧ (b < b2 ∨ (b = b2 ∧ (c < c2 ∨ (c = c2 ∧ d < d2)))))) →
      1 / fps / 100 * (((((a : ℚ) * 60 * 60) + ((b : ℚ) * 60) + (c : ℚ)) * fps) + (d : ℚ))
        < 1 / fps / 100
          * (((((a2 : ℚ) * 60 * 60) + ((b2 : ℚ) * 60) + (c2 : ℚ)) * fps) + (d2 : ℚ)) := by
    intro a b c d a2 b2 c2 d2 h1 h2 hl
    exact mul_lt_mul_of_pos_left (total_frames_lt fps a b c d a2 b2 c2 d2 hfps h1 h2 hl) hc
  have hinj : 1 / fps / 100 * (((((h : ℚ) * 60 * 60) + ((m : ℚ) * 60) + (s : ℚ)) * fps) + (f : ℚ))
      = 1 / fps / 100
        * (((((h2 : ℚ) * 60 * 60) + ((m2 : ℚ) * 60) + (s2 : ℚ)) * fps) + (f2 : ℚ)) →
      h = h2 ∧ m = m2 ∧ s = s2 ∧ f = f2 := by
    intro heq
    by_contra hne
    have hlex : (h < h2 ∨ (h = h2 ∧ (m < m2 ∨ (m = m2 ∧ (s < s2 ∨ (s = s2 ∧ f < f2))))))
        ∨ (h2 < h ∨ (h2 = h ∧ (m2 < m ∨ (m2 = m ∧ (s2 < s ∨ (s2 = s ∧ f2 < f)))))) := by
      omega
    rcases hlex with hl | hl
    · exact absurd heq (ne_of_lt (hmono h m s f h2 m2 s2 f2 hr1 hr2 hl))
    · exact absurd heq.symm (ne_of_lt (hmono h2 m2 s2 f2 h m s f hr2 hr1 hl))
  refine ⟨?_, ?_, ?_⟩
  · intro hl
    exact ⟨_, _, chunks_to_total_ticks_ok _ _ _ _ _ hfps, chunks_to_total_ticks_ok _ _ _ _ _ hfps,
      hmono h m s f h2 m2 s2 f2 hr1 hr2 hl⟩
  · intro heq
    rw [chunks_to_total_ticks_ok _ _ _ _ _ hfps, chunks_to_total_ticks_ok _ _ _ _ _ hfps] at heq
    exact hinj (Except.ok.inj heq)
  · intro p hp heq
    subst hp
    obtain ⟨h0, m0, _, s0, _, f0, _⟩ := hr1
    obtain ⟨h20, m20, _, s20, _, f20, _⟩ := hr2
    simp only [__BasicTimecode.from_hmsf, VTM_ASSERT, ge_iff_le, h0, m0, s0, f0, h20, m20, s20,
      f20, decide_True, if_true, bind, Except.bind, pure, Except.pure,
      chunks_to_total_ticks_ok _ _ _ _ _ hfps] at heq
    exact hinj (ctor_float_injective _ _ _ (Except.ok.inj heq))

/-! ## Rounding to the x87 extended format -/

theorem bit_length_fuel_zero (fuel : ℕ) : x87.bit_length_fuel fuel 0 = 0 := by
  cases fuel <;> simp [x87.bit_length_fuel]

theorem bit_length_fuel_spec : ∀ fuel n : ℕ, n ≤ fuel → 0 < n →
    2 ^ (x87.bit_length_fuel fuel n - 1) ≤ n ∧ n < 2 ^ x87.bit_length_fuel fuel n := by
  intro fuel
  induction fuel with
  | zero => intro n h1 h2; omega
  | succ k ih =>
    intro n h1 h2
    have hn : n ≠ 0 := by omega
    rw [x87.bit_length_fuel, if_neg hn]
    rcases Nat.eq_zero_or_pos (n / 2) with h0 | hpos
    · rw [h0, bit_length_fuel_zero]
      have : n = 1 := by omega
      subst this
      simp
    · obtain ⟨i1, i2⟩ := ih (n / 2) (by omega) hpos
      have hb : 1 ≤ x87.bit_length_fuel k (n / 2) := by
        by_contra hc
        have : x87.bit_length_fuel k (n / 2) = 0 := by omega
        rw [this] at i2
        simp at i2
        omega
      have e1 : x87.bit_length_fuel k (n / 2) + 1 - 1
          = (x87.bit_length_fuel k (n / 2) - 1) + 1 := by omega
      rw [e1, pow_succ, pow_succ]
      constructor <;> omega

theorem bit_length_spec (n : ℕ) (h : 0 < n) :
    2 ^ (x87.bit_length n - 1) ≤ n ∧ n < 2 ^ x87.bit_length n ∧ 1 ≤ x87.bit_length n := by
  obtain ⟨i1, i2⟩ := bit_length_fuel_spec n n le_rfl h
  refine ⟨i1, i2, ?_⟩
  by_contra hc
  have : x87.bit_length n = 0 := by omega
  unfold x87.bit_length at this
  rw [this] at i2
  simp at i2
  omega

theorem abs_eq_natAbs_div_den (x : ℚ) : |x| = (x.num.natAbs : ℚ) / (x.den : ℚ) := by
  have h1 : ((x.num.natAbs : ℕ) : ℚ) = |(x.num : ℚ)| := by
    rw [Nat.cast_natAbs, Int.cast_abs]
  rw [h1]
  conv_lhs => rw [← Rat.num_div_den x]
  rw [abs_div, Nat.abs_cast]

/-- The binary exponent brackets the number: `2 ^ e ≤ |x| < 2 ^ (e + 1)`. -/
theorem exponent_spec (x : ℚ) (hx : x ≠ 0) :
    (2 : ℚ) ^ x87.exponent x ≤ |x| ∧ |x| < (2 : ℚ) ^ (x87.exponent x + 1) := by
  have hp : 0 < x.num.natAbs := Int.natAbs_pos.mpr (Rat.num_ne_zero.mpr hx)
  have hq : 0 < x.den := x.den_pos
  obtain ⟨p1, p2, p3⟩ := bit_length_spec _ hp
  obtain ⟨q1, q2, q3⟩ := bit_length_spec _ hq
  have hqq : (0 : ℚ) < (x.den : ℚ) := by exact_mod_cast hq
  have P1 : (2 : ℚ) ^ (((x87.bit_length x.num.natAbs : ℤ)) - 1) ≤ (x.num.natAbs : ℚ) := by
    have : (((x87.bit_length x.num.natAbs : ℤ)) - 1) = ((x87.bit_length x.num.natAbs - 1 : ℕ) : ℤ) := by
      omega
    rw [this, zpow_natCast]
    exact_mod_cast p1
  have P2 : (x.num.natAbs : ℚ) < (2 : ℚ) ^ ((x87.bit_length x.num.natAbs : ℤ)) := by
    rw [zpow_natCast]
    exact_mod_cast p2
  have Q1 : (2 : ℚ) ^ (((x87.bit_length x.den : ℤ)) - 1) ≤ (x.den : ℚ) := by
    have : (((x87.bit_length x.den : ℤ)) - 1) = ((x87.bit_length x.den - 1 : ℕ) : ℤ) := by
      omega
    rw [this, zpow_natCast]
    exact_mod_cast q1
  have Q2 : (x.den : ℚ) < (2 : ℚ) ^ ((x87.bit_length x.den : ℤ)) := by
    rw [zpow_natCast]
    exact_mod_cast q2
  have h2 : (0 : ℚ) < 2 := by norm_num
  have h2ne : (2 : ℚ) ≠ 0 := by norm_num
  have habs := abs_eq_natAbs_div_den x
  unfold x87.exponent
  simp only
  split_ifs with hc
  · refine ⟨hc, ?_⟩
    rw [habs, div_lt_iff₀ hqq]
    have e : (2 : ℚ) ^ ((x87.bit_length x.num.natAbs : ℤ) - (x87.bit_length x.den : ℤ) + 1)
        = (2 : ℚ) ^ ((x87.bit_length x.num.natAbs : ℤ))
          / (2 : ℚ) ^ (((x87.bit_length x.den : ℤ)) - 1) := by
      rw [← zpow_sub₀ h2ne]
      congr 1
      ring
    rw [e, div_mul_eq_mul_div, lt_div_iff₀ (zpow_pos h2 _)]
    calc (x.num.natAbs : ℚ) * (2 : ℚ) ^ (((x87.bit_length x.den : ℤ)) - 1)
        ≤ (x.num.natAbs : ℚ) * (x.den : ℚ) :=
          mul_le_mul_of_nonneg_left Q1 (by positivity)
      _ < (2 : ℚ) ^ ((x87.bit_length x.num.natAbs : ℤ)) * (x.den : ℚ) :=
          mul_lt_mul_of_pos_right P2 hqq
  · constructor
    · rw [habs, le_div_iff₀ hqq]
      have e : (2 : ℚ) ^ ((x87.bit_length x.num.natAbs : ℤ) - (x87.bit_length x.den : ℤ) - 1)
          = (2 : ℚ) ^ (((x87.bit_length x.num.natAbs : ℤ)) - 1)
            / (2 : ℚ) ^ ((x87.bit_length x.den : ℤ)) := by
        rw [← zpow_sub₀ h2ne]
        congr 1
        ring
      rw [e, div_mul_eq_mul_div, div_le_iff₀ (zpow_pos h2 _)]
      calc (2 : ℚ) ^ (((x87.bit_length x.num.natAbs : ℤ)) - 1) * (x.den : ℚ)
          ≤ (x.num.natAbs : ℚ) * (x.den : ℚ) :=
            mul_le_mul_of_nonneg_right P1 hqq.le
        _ ≤ (x.num.natAbs : ℚ) * (2 : ℚ) ^ ((x87.bit_length x.den : ℤ)) :=
            mul_le_mul_of_nonneg_left Q2.le (by positivity)
    · have e : (x87.bit_length x.num.natAbs : ℤ) - (x87.bit_length x.den : ℤ) - 1 + 1
          = (x87.bit_length x.num.natAbs : ℤ) - (x87.bit_length x.den : ℤ) := by ring
      rw [e]
      exact not_le.mp hc

theorem round_half_even_natCast (m : ℕ) : round_half_even (m : ℚ) = m := by
  unfold round_half_even
  simp

/-- A natural number below `2 ^ 64` is a number of the format: rounding leaves it alone. -/
theorem fl_natCast (n : ℕ) (hn : n < 2 ^ 64) : x87.fl (n : ℚ) = n := by
  rcases Nat.eq_zero_or_pos n with h0 | hpos
  · subst h0
    decide!
  · have hx : (0 : ℚ) < (n : ℚ) := by exact_mod_cast hpos
    obtain ⟨e1, -⟩ := exponent_spec (n : ℚ) hx.ne'
    rw [abs_of_pos hx] at e1
    have h2 : (1 : ℚ) < 2 := by norm_num
    have h2ne : (2 : ℚ) ≠ 0 := by norm_num
    have hlt : (2 : ℚ) ^ x87.exponent (n : ℚ) < (2 : ℚ) ^ (64 : ℤ) := by
      have : ((n : ℕ) : ℚ) < (2 : ℚ) ^ (64 : ℤ) := by
        rw [show ((64 : ℤ)) = ((64 : ℕ) : ℤ) from rfl, zpow_natCast]
        exact_mod_cast hn
      exact lt_of_le_of_lt e1 this
    have he : x87.exponent (n : ℚ) < 64 := (zpow_lt_zpow_iff_right₀ h2).mp hlt
    obtain ⟨k, hk⟩ : ∃ k : ℕ, x87.exponent (n : ℚ) - 63 = -(k : ℤ) :=
      ⟨(63 - x87.exponent (n : ℚ)).toNat, by omega⟩
    unfold x87.fl
    rw [if_neg hx.ne']
    simp only
    rw [if_neg (not_lt.mpr hx.le), abs_of_pos hx, hk, zpow_neg, zpow_natCast]
    have : (n : ℚ) / ((2 : ℚ) ^ k)⁻¹ = ((n * 2 ^ k : ℕ) : ℚ) := by
      rw [div_inv_eq_mul]
      push_cast
      ring
    rw [this, round_half_even_natCast]
    push_cast
    field_simp

/-! ## The tick value in the x87 extended format -/

theorem x87_fps_to_single_tick_ok (fps : ℚ) (h : 0 < fps) :
    x87.fps_to_single_tick fps = .ok (x87.fl (x87.fl (1 / fps) / 100)) := by
  simp [x87.fps_to_single_tick, VTM_ASSERT, h, bind, Except.bind, pure, Except.pure]

theorem x87_chunks_to_total_ticks_ok (h m s f fps : ℚ) (hfps : 0 < fps) :
    x87.chunks_to_total_ticks (h, m, s, f) fps
      = .ok (x87.fl (x87.fl (x87.fl (1 / fps) / 100)
          * x87.fl (x87.fl (x87.fl (x87.fl (x87.fl (x87.fl (h * 60) * 60) + x87.fl (m * 60)) + s)
              * fps) + f))) := by
  simp only [x87.chunks_to_total_ticks, x87_fps_to_single_tick_ok fps hfps, VTM_ASSERT, gt_iff_lt,
    hfps, decide_True, if_true, bind, Except.bind, pure, Except.pure]

/-- The whole seconds of a tuple are computed without rounding: every intermediate value
is a natural number below `2 ^ 64`. -/
theorem total_seconds_exact (h m s : ℕ) (hh : h < 2 ^ 31) (hm : m < 2 ^ 31) (hs : s < 2 ^ 31) :
    x87.fl (x87.fl (x87.fl (x87.fl ((h : ℚ) * 60) * 60) + x87.fl ((m : ℚ) * 60)) + (s : ℚ))
      = ((h * 3600 + m * 60 + s : ℕ) : ℚ) := by
  have hh2 : h < 2147483648 := by norm_num at hh; exact hh
  have hm2 : m < 2147483648 := by norm_num at hm; exact hm
  have hs2 : s < 2147483648 := by norm_num at hs; exact hs
  have b64 : (2 : ℕ) ^ 64 = 18446744073709551616 := by norm_num
  have a1 : x87.fl ((h : ℚ) * 60) = ((h * 60 : ℕ) : ℚ) := by
    rw [show (h : ℚ) * 60 = ((h * 60 : ℕ) : ℚ) by push_cast; ring]
    exact fl_natCast _ (by rw [b64]; omega)
  have a2 : x87.fl (((h * 60 : ℕ) : ℚ) * 60) = ((h * 3600 : ℕ) : ℚ) := by
    rw [show ((h * 60 : ℕ) : ℚ) * 60 = ((h * 3600 : ℕ) : ℚ) by push_cast; ring]
    exact fl_natCast _ (by rw [b64]; omega)
  have a3 : x87.fl ((m : ℚ) * 60) = ((m * 60 : ℕ) : ℚ) := by
    rw [show (m : ℚ) * 60 = ((m * 60 : ℕ) : ℚ) by push_cast; ring]
    exact fl_natCast _ (by rw [b64]; omega)
  have a4 : x87.fl (((h * 3600 : ℕ) : ℚ) + ((m * 60 : ℕ) : ℚ))
      = ((h * 3600 + m * 60 : ℕ) : ℚ) := by
    rw [show ((h * 3600 : ℕ) : ℚ) + ((m * 60 : ℕ) : ℚ) = ((h * 3600 + m * 60 : ℕ) : ℚ) by
      push_cast; ring]
    exact fl_natCast _ (by rw [b64]; omega)
  have a5 : x87.fl (((h * 3600 + m * 60 : ℕ) : ℚ) + (s : ℚ))
      = ((h * 3600 + m * 60 + s : ℕ) : ℚ) := by
    rw [show ((h * 3600 + m * 60 : ℕ) : ℚ) + (s : ℚ) = ((h * 3600 + m * 60 + s : ℕ) : ℚ) by
      push_cast; ring]
    exact fl_natCast _ (by rw [b64]; omega)
  rw [a1, a2, a3, a4, a5]

/-- Sixty seconds count as one minute and sixty minutes as one hour in the tick value that
`chunks_to_total_ticks` computes in `long double`: the whole seconds of the components are
computed without rounding. -/
theorem x87_sixty_carried (fps : ℚ) (h m s f : ℕ) (hh : h + 1 < 2 ^ 31) (hm : m + 1 < 2 ^ 31)
    (hs : s < 2 ^ 31) :
    x87.chunks_to_total_ticks ((h : ℚ), (m : ℚ), 60, (f : ℚ)) fps
        = x87.chunks_to_total_ticks ((h : ℚ), (m : ℚ) + 1, 0, (f : ℚ)) fps
      ∧ x87.chunks_to_total_ticks ((h : ℚ), 60, (s : ℚ), (f : ℚ)) fps
        = x87.chunks_to_total_ticks ((h : ℚ) + 1, 0, (s : ℚ), (f : ℚ)) fps := by
  have hh1 : h < 2 ^ 31 := by omega
  have hm1 : m < 2 ^ 31 := by omega
  have a1 := total_seconds_exact h m 60 hh1 hm1 (by norm_num)
  have a2 := total_seconds_exact h (m + 1) 0 hh1 hm (by norm_num)
  have a3 := total_seconds_exact h 60 s hh1 (by norm_num) hs
  have a4 := total_seconds_exact (h + 1) 0 s hh (by norm_num) hs
  push_cast at a1 a2 a3 a4
  by_cases hfps : 0 < fps
  · rw [x87_chunks_to_total_ticks_ok _ _ _ _ _ hfps, x87_chunks_to_total_ticks_ok _ _ _ _ _ hfps,
      x87_chunks_to_total_ticks_ok _ _ _ _ _ hfps, x87_chunks_to_total_ticks_ok _ _ _ _ _ hfps,
      a1, a2, a3, a4]
    have e1 : (h : ℚ) * 3600 + (m : ℚ) * 60 + 60 = (h : ℚ) * 3600 + ((m : ℚ) + 1) * 60 + 0 := by
      ring
    have e2 : (h : ℚ) * 3600 + 3600 + (s : ℚ) = ((h : ℚ) + 1) * 3600 + 0 + (s : ℚ) := by ring
    rw [e1, e2]
    exact ⟨rfl, rfl⟩
  · simp [x87.chunks_to_total_ticks, VTM_ASSERT, hfps, bind, Except.bind]

/-- With every operation taken as exact: `valid_tcstring` checks no range of minutes, seconds or frames: every string of
digit fields whose last three have two digits is valid; for every rate `fps > 0` the tick
value of `(h, m, 60, f)` is that of `(h, m+1, 0, f)` and the tick value of `(h, 60, s, f)` is
that of `(h+1, 0, s, f)`; so for every format other than `none` the string `00:00:60:00` is
accepted by `from_string`, gives the value of `from_hmsf(0,1,0,0,fps)` and is formatted as
`00:01:00:00`. -/
theorem out_of_range_fields_carried_exact :
    (∀ hh mm ss ff : string_t, mm.length = 2 ∧ ss.length = 2 ∧ ff.length = 2 →
        (∀ x ∈ hh ++ mm ++ ss ++ ff, x.isDigit = true) →
        valid_tcstring (layout hh mm ss ff ':') = .ok true)
      ∧ (∀ (fps : ℚ) (h m s f : ℕ), 0 < fps →
        (∃ x : ℚ, chunks_to_total_ticks ((h : ℚ), (m : ℚ), 60, (f : ℚ)) fps = .ok x
          ∧ chunks_to_total_ticks ((h : ℚ), (m : ℚ) + 1, 0, (f : ℚ)) fps = .ok x)
        ∧ (∃ y : ℚ, chunks_to_total_ticks ((h : ℚ), 60, (s : ℚ), (f : ℚ)) fps = .ok y
          ∧ chunks_to_total_ticks ((h : ℚ) + 1, 0, (s : ℚ), (f : ℚ)) fps = .ok y))
      ∧ (∀ p : format, p ≠ format.none →
        valid_tcstring "00:00:60:00".toList = .ok true
          ∧ __BasicTimecode.from_string "00:00:60:00".toList p
              = __BasicTimecode.from_hmsf 0 1 0 0 p
          ∧ ∃ tc : __BasicTimecode, __BasicTimecode.from_string "00:00:60:00".toList p = .ok tc
              ∧ tc.as_string = .ok "00:01:00:00".toList) := by
  refine ⟨?_, ?_, ?_⟩
  · intro hh mm ss ff hlen hdig
    exact (valid_tcstring_fields ':' (Or.inl rfl) hh mm ss ff hlen.1 hlen.2.1 hlen.2.2 hdig).1
  · intro fps h m s f hfps
    refine ⟨⟨_, chunks_to_total_ticks_ok _ _ _ _ _ hfps, ?_⟩,
      ⟨_, chunks_to_total_ticks_ok _ _ _ _ _ hfps, ?_⟩⟩
    · rw [chunks_to_total_ticks_ok _ _ _ _ _ hfps]
      congr 1
      ring
    · rw [chunks_to_total_ticks_ok _ _ _ _ _ hfps]
      congr 1
      ring
  · intro p hp
    have hpos := (registry_rate p hp).1
    have hfs := from_string_fields ':' (Or.inl rfl) "00".toList "00".toList "60".toList
      "00".toList (by decide) (by decide) (by decide) (by decide) p hpos
    have hstr : "00".toList ++ ':' :: "00".toList ++ ':' :: "60".toList ++ ':' :: "00".toList
        = "00:00:60:00".toList := by decide
    rw [hstr] at hfs
    have hd0 : digits_value "00".toList = 0 := by decide
    have hd60 : digits_value "60".toList = 60 := by decide
    rw [hd0, hd60] at hfs
    have hfh := from_hmsf_ok p 0 1 0 0 hpos
    have hval : 1 / __fpsformat_value_to_float p / 100
          * ((((((0 : ℕ) : ℚ) * 60 * 60) + (((0 : ℕ) : ℚ) * 60) + ((60 : ℕ) : ℚ))
              * __fpsformat_value_to_float p) + ((0 : ℕ) : ℚ))
        = 1 / __fpsformat_value_to_float p / 100
          * ((((((0 : ℕ) : ℚ) * 60 * 60) + (((1 : ℕ) : ℚ) * 60) + ((0 : ℕ) : ℚ))
              * __fpsformat_value_to_float p) + ((0 : ℕ) : ℚ)) := by
      push_cast
      ring
    rw [hval] at hfs
    have hfh2 : __BasicTimecode.from_hmsf 0 1 0 0 p
        = __BasicTimecode.from_hmsf ((0 : ℕ) : ℤ) ((1 : ℕ) : ℤ) ((0 : ℕ) : ℤ) ((0 : ℕ) : ℤ) p := rfl
    refine ⟨by decide, ?_, _, hfs, ?_⟩
    · rw [hfs, hfh2, hfh]
    · rw [as_string_ctor_float, ticks_to_string_hmsf _ 0 1 0 0 hpos (by decide) (by decide)
        (by push_cast; linarith)]
      decide

/-- C33, as the program computes it.  `valid_tcstring` accepts the strings `00:00:60:00`
and `00:99:99:99`, and the components (1, 2, 60, 4) and (1, 3, 0, 4), and (1, 60, 3, 4)
and (2, 0, 3, 4), have the same tick value.  But at 25 frames per second
`from_string("00:00:60:00")` has the tick value `11068046444225730969 / 2 ^ 64`, just
below the tick value `5534023222112865485 / 2 ^ 63` of `from_hmsf(0, 1, 0, 0)`; the
Timecodes compare unequal, and the first is formatted as `00:01:60:00`, not as
`00:01:00:00`. -/
theorem C33_sixty_seconds_not_carried :
    valid_tcstring "00:00:60:00".toList = .ok true
      ∧ valid_tcstring "00:99:99:99".toList = .ok true
      ∧ x87.chunks_to_total_ticks (1, 2, 60, 4) 25 = x87.chunks_to_total_ticks (1, 3, 0, 4) 25
      ∧ x87.chunks_to_total_ticks (1, 60, 3, 4) 25 = x87.chunks_to_total_ticks (2, 0, 3, 4) 25
      ∧ x87.from_string "00:00:60:00".toList format.fps_25
          = .ok (__BasicTimecode.ctor_float (11068046444225730969 / 2 ^ 64) format.fps_25)
      ∧ x87.from_hmsf 0 1 0 0 format.fps_25
          = .ok (__BasicTimecode.ctor_float (5534023222112865485 / 2 ^ 63) format.fps_25)
      ∧ (11068046444225730969 / 2 ^ 64 : ℚ) < 5534023222112865485 / 2 ^ 63
      ∧ (do
          let a ← x87.from_string "00:00:60:00".toList format.fps_25
          let b ← x87.from_hmsf 0 1 0 0 format.fps_25
          x87.operator_eq a b) = .ok false
      ∧ (x87.from_string "00:00:60:00".toList format.fps_25 >>= x87.as_string)
          = .ok "00:01:60:00".toList
      ∧ (x87.from_hmsf 0 1 0 0 format.fps_25 >>= x87.as_string)
          = .ok "00:01:00:00".toList := by
  decide!

end chrono

end vtm
